import Mathlib

set_option maxRecDepth 10000
set_option maxHeartbeats 1000000

namespace Phyx

/-- Productivity threshold: the constant `kProductiveImpulse = 1e-4f` of
`src/Solver.h`, modelled as the exact rational `1/10000`.  All float
arithmetic of the solver is embedded as exact rational arithmetic. -/
def kProductiveImpulse : ℚ := 1 / 10000

/-- Friction coefficient: the constant `kFrictionCoefficient = 0.3f` of
`src/Solver.h`, modelled as the exact rational `3/10`. -/
def kFrictionCoefficient : ℚ := 3 / 10

/-- Modelled from the spec: the normal limiter of a `ContactJoint` (declared in
`Joints.h`, which is not under `src/`); the fields are exactly the ones read
and written by the kernels of `src/Solver.h` (see also the per-field packed
layout `ContactJointPacked<N>`) and listed in spec section 3. -/
structure NormalLimiter where
  normalProjector1X : ℚ
  normalProjector1Y : ℚ
  normalProjector2X : ℚ
  normalProjector2Y : ℚ
  angularProjector1 : ℚ
  angularProjector2 : ℚ
  compMass1_linearX : ℚ
  compMass1_linearY : ℚ
  compMass2_linearX : ℚ
  compMass2_linearY : ℚ
  compMass1_angular : ℚ
  compMass2_angular : ℚ
  compInvMass : ℚ
  accumulatedImpulse : ℚ
  dstVelocity : ℚ
  dstDisplacingVelocity : ℚ
  accumulatedDisplacingImpulse : ℚ
  deriving DecidableEq

/-- Modelled from the spec: the friction limiter of a `ContactJoint`; same
shape as the normal limiter but without the displacement-channel fields,
matching the `frictionLimiter_*` arrays of `ContactJointPacked<N>`. -/
structure FrictionLimiter where
  normalProjector1X : ℚ
  normalProjector1Y : ℚ
  normalProjector2X : ℚ
  normalProjector2Y : ℚ
  angularProjector1 : ℚ
  angularProjector2 : ℚ
  compMass1_linearX : ℚ
  compMass1_linearY : ℚ
  compMass2_linearX : ℚ
  compMass2_linearY : ℚ
  compMass1_angular : ℚ
  compMass2_angular : ℚ
  compInvMass : ℚ
  accumulatedImpulse : ℚ
  deriving DecidableEq

/-- Modelled from the spec: a `ContactJoint` as consumed by the solver: the
two body indices plus the two limiters.  The direct pointers `body1`/`body2`
used by the AoS backend are modelled by index resolution `bodies body1Index`,
per spec section 9 ("the AoS backend resolves index → &bodies[index]"). -/
structure ContactJoint where
  body1Index : ℕ
  body2Index : ℕ
  normalLimiter : NormalLimiter
  frictionLimiter : FrictionLimiter
  deriving DecidableEq

/-- Modelled from the spec: the solver-visible mutable part of a `RigidBody`
(`RigidBody.h` is not under `src/`): the impulse channel
(velocity, angularVelocity, lastIteration) and the displacement channel
(displacingVelocity, displacingAngularVelocity, lastDisplacementIteration),
exactly the fields read and written by the AoS kernels of `src/Solver.h`. -/
structure RigidBody where
  velocityX : ℚ
  velocityY : ℚ
  angularVelocity : ℚ
  lastIteration : ℤ
  displacingVelocityX : ℚ
  displacingVelocityY : ℚ
  displacingAngularVelocity : ℚ
  lastDisplacementIteration : ℤ
  deriving DecidableEq

/-- `Solver::SolveBody`: the SoA mirror of one body channel (velocity,
angular velocity, last-productive-iteration tag). -/
structure SolveBody where
  velocityX : ℚ
  velocityY : ℚ
  angularVelocity : ℚ
  lastIteration : ℤ
  deriving DecidableEq

instance : Inhabited NormalLimiter :=
  ⟨⟨0, 0, 0, 0, 0, 0, 0, 0, 0, 0, 0, 0, 0, 0, 0, 0, 0⟩⟩

instance : Inhabited FrictionLimiter :=
  ⟨⟨0, 0, 0, 0, 0, 0, 0, 0, 0, 0, 0, 0, 0, 0⟩⟩

instance : Inhabited ContactJoint := ⟨⟨0, 0, default, default⟩⟩

instance : Inhabited RigidBody := ⟨⟨0, 0, 0, 0, 0, 0, 0, 0⟩⟩

instance : Inhabited SolveBody := ⟨⟨0, 0, 0, 0⟩⟩

/-- Result values of the solve entry points: a finite rational, a signed
infinity, or NaN.  Only the final diagnostic division can leave the finite
range (0/0 in `SolveFinish*` when there are no joints), so the embedding
keeps all intermediate arithmetic in `ℚ` and applies this type at the final
division only. -/
inductive FpVal where
  | fin (q : ℚ)
  | inf (neg : Bool)
  | nan
  deriving DecidableEq

/-- IEEE-style division of finite operands: `0/0` is NaN, `x/0` with
`x ≠ 0` is a signed infinity, and the quotient is exact otherwise. -/
def fdiv (a b : ℚ) : FpVal :=
  if b = 0 then (if a = 0 then .nan else .inf (a < 0)) else .fin (a / b)

/-- `flipsign(x, base)` of `base/SIMD.h`: copies the sign bit of `base` onto
`x` by xor; over exact rationals (no negative zero) this negates `x` exactly
when `base` is negative. -/
def flipsign (x base : ℚ) : ℚ := if base < 0 then -x else x

/-- Pointwise store update: models an in-place write through a
`RigidBody*` pointer into the caller's body array. -/
def updBody (bodies : ℕ → RigidBody) (idx : ℕ) (b : RigidBody) : ℕ → RigidBody :=
  fun n => if n = idx then b else bodies n

/-- Pointwise store update for the `SolveBody` scratch arrays: models one
`storeindexed4` lane store. -/
def updSolveBody (bodies : ℕ → SolveBody) (idx : ℕ) (b : SolveBody) : ℕ → SolveBody :=
  fun n => if n = idx then b else bodies n

/-- Body of one joint's work in `Solver::SolveJointsImpulsesAoS`
(`src/Solver.h` lines 570-636): everything after the early-out `continue`.
Reads and writes go through the body store so that the interleaved
field-by-field `+=` writes of the source are modelled exactly (in
particular the friction leg re-reads the bodies after the normal leg's
writes). -/
def solveJointImpulseAoSCompute (iterationIndex : ℤ) (bodies : ℕ → RigidBody)
    (joint : ContactJoint) : (ℕ → RigidBody) × ContactJoint × Bool :=
  let nl := joint.normalLimiter
  let fl := joint.frictionLimiter
  let body1 := bodies joint.body1Index
  let body2 := bodies joint.body2Index
  let normaldV := nl.dstVelocity
    - nl.normalProjector1X * body1.velocityX
    - nl.normalProjector1Y * body1.velocityY
    - nl.angularProjector1 * body1.angularVelocity
    - nl.normalProjector2X * body2.velocityX
    - nl.normalProjector2Y * body2.velocityY
    - nl.angularProjector2 * body2.angularVelocity
  let normalDeltaImpulse0 := normaldV * nl.compInvMass
  let normalDeltaImpulse :=
    if normalDeltaImpulse0 + nl.accumulatedImpulse < 0 then -nl.accumulatedImpulse
    else normalDeltaImpulse0
  let bodies1 := updBody bodies joint.body1Index
    { body1 with
      velocityX := body1.velocityX + nl.compMass1_linearX * normalDeltaImpulse
      velocityY := body1.velocityY + nl.compMass1_linearY * normalDeltaImpulse
      angularVelocity := body1.angularVelocity + nl.compMass1_angular * normalDeltaImpulse }
  let body2n := bodies1 joint.body2Index
  let bodies2 := updBody bodies1 joint.body2Index
    { body2n with
      velocityX := body2n.velocityX + nl.compMass2_linearX * normalDeltaImpulse
      velocityY := body2n.velocityY + nl.compMass2_linearY * normalDeltaImpulse
      angularVelocity := body2n.angularVelocity + nl.compMass2_angular * normalDeltaImpulse }
  let nl1 := { nl with accumulatedImpulse := nl.accumulatedImpulse + normalDeltaImpulse }
  let fbody1 := bodies2 joint.body1Index
  let fbody2 := bodies2 joint.body2Index
  let frictiondV := (0 : ℚ)
    - fl.normalProjector1X * fbody1.velocityX
    - fl.normalProjector1Y * fbody1.velocityY
    - fl.angularProjector1 * fbody1.angularVelocity
    - fl.normalProjector2X * fbody2.velocityX
    - fl.normalProjector2Y * fbody2.velocityY
    - fl.angularProjector2 * fbody2.angularVelocity
  let frictionDeltaImpulse0 := frictiondV * fl.compInvMass
  let reactionForce := nl1.accumulatedImpulse
  let accumulatedImpulse := fl.accumulatedImpulse
  let frictionForce := accumulatedImpulse + frictionDeltaImpulse0
  let frictionDeltaImpulse :=
    if |frictionForce| > reactionForce * kFrictionCoefficient then
      (if frictionForce > 0 then (1 : ℚ) else -1) * reactionForce * kFrictionCoefficient
        - accumulatedImpulse
    else frictionDeltaImpulse0
  let fl1 := { fl with accumulatedImpulse := fl.accumulatedImpulse + frictionDeltaImpulse }
  let gbody1 := bodies2 joint.body1Index
  let bodies3 := updBody bodies2 joint.body1Index
    { gbody1 with
      velocityX := gbody1.velocityX + fl.compMass1_linearX * frictionDeltaImpulse
      velocityY := gbody1.velocityY + fl.compMass1_linearY * frictionDeltaImpulse
      angularVelocity := gbody1.angularVelocity + fl.compMass1_angular * frictionDeltaImpulse }
  let gbody2 := bodies3 joint.body2Index
  let bodies4 := updBody bodies3 joint.body2Index
    { gbody2 with
      velocityX := gbody2.velocityX + fl.compMass2_linearX * frictionDeltaImpulse
      velocityY := gbody2.velocityY + fl.compMass2_linearY * frictionDeltaImpulse
      angularVelocity := gbody2.angularVelocity + fl.compMass2_angular * frictionDeltaImpulse }
  let cumulativeImpulse := max |normalDeltaImpulse| |frictionDeltaImpulse|
  if cumulativeImpulse > kProductiveImpulse then
    let hbody1 := bodies4 joint.body1Index
    let bodies5 := updBody bodies4 joint.body1Index { hbody1 with lastIteration := iterationIndex }
    let hbody2 := bodies5 joint.body2Index
    let bodies6 := updBody bodies5 joint.body2Index { hbody2 with lastIteration := iterationIndex }
    (bodies6, { joint with normalLimiter := nl1, frictionLimiter := fl1 }, true)
  else
    (bodies4, { joint with normalLimiter := nl1, frictionLimiter := fl1 }, false)

/-- One joint of `Solver::SolveJointsImpulsesAoS`, including the early-out
`continue` test (`src/Solver.h` line 567). -/
def solveJointImpulseAoS (iterationIndex : ℤ) (bodies : ℕ → RigidBody)
    (joint : ContactJoint) : (ℕ → RigidBody) × ContactJoint × Bool :=
  if (bodies joint.body1Index).lastIteration < iterationIndex - 1 ∧
     (bodies joint.body2Index).lastIteration < iterationIndex - 1 then
    (bodies, joint, false)
  else solveJointImpulseAoSCompute iterationIndex bodies joint

/-- `Solver::SolveJointsImpulsesAoS`: one impulse pass over the joint list in
order, threading the body store and or-ing the per-joint productive flags.
The drivers always call it with `jointStart = 0` and the full joint count, so
the joint range is represented by the list itself. -/
def SolveJointsImpulsesAoS (iterationIndex : ℤ) (bodies : ℕ → RigidBody) :
    List ContactJoint → (ℕ → RigidBody) × List ContactJoint × Bool
  | [] => (bodies, [], false)
  | j :: rest =>
    let r := solveJointImpulseAoS iterationIndex bodies j
    let rr := SolveJointsImpulsesAoS iterationIndex r.1 rest
    (rr.1, r.2.1 :: rr.2.1, r.2.2 || rr.2.2)

/-- Body of one joint's work in `Solver::SolveJointsDisplacementAoS`
(`src/Solver.h` lines 658-688): the displacement channel uses only the
normal limiter and has no friction leg. -/
def solveJointDisplacementAoSCompute (iterationIndex : ℤ) (bodies : ℕ → RigidBody)
    (joint : ContactJoint) : (ℕ → RigidBody) × ContactJoint × Bool :=
  let nl := joint.normalLimiter
  let body1 := bodies joint.body1Index
  let body2 := bodies joint.body2Index
  let dV := nl.dstDisplacingVelocity
    - nl.normalProjector1X * body1.displacingVelocityX
    - nl.normalProjector1Y * body1.displacingVelocityY
    - nl.angularProjector1 * body1.displacingAngularVelocity
    - nl.normalProjector2X * body2.displacingVelocityX
    - nl.normalProjector2Y * body2.displacingVelocityY
    - nl.angularProjector2 * body2.displacingAngularVelocity
  let displacingDeltaImpulse0 := dV * nl.compInvMass
  let displacingDeltaImpulse :=
    if displacingDeltaImpulse0 + nl.accumulatedDisplacingImpulse < 0 then
      -nl.accumulatedDisplacingImpulse
    else displacingDeltaImpulse0
  let bodies1 := updBody bodies joint.body1Index
    { body1 with
      displacingVelocityX := body1.displacingVelocityX + nl.compMass1_linearX * displacingDeltaImpulse
      displacingVelocityY := body1.displacingVelocityY + nl.compMass1_linearY * displacingDeltaImpulse
      displacingAngularVelocity := body1.displacingAngularVelocity + nl.compMass1_angular * displacingDeltaImpulse }
  let body2n := bodies1 joint.body2Index
  let bodies2 := updBody bodies1 joint.body2Index
    { body2n with
      displacingVelocityX := body2n.displacingVelocityX + nl.compMass2_linearX * displacingDeltaImpulse
      displacingVelocityY := body2n.displacingVelocityY + nl.compMass2_linearY * displacingDeltaImpulse
      displacingAngularVelocity := body2n.displacingAngularVelocity + nl.compMass2_angular * displacingDeltaImpulse }
  let nl1 := { nl with accumulatedDisplacingImpulse := nl.accumulatedDisplacingImpulse + displacingDeltaImpulse }
  if |displacingDeltaImpulse| > kProductiveImpulse then
    let hbody1 := bodies2 joint.body1Index
    let bodies3 := updBody bodies2 joint.body1Index { hbody1 with lastDisplacementIteration := iterationIndex }
    let hbody2 := bodies3 joint.body2Index
    let bodies4 := updBody bodies3 joint.body2Index { hbody2 with lastDisplacementIteration := iterationIndex }
    (bodies4, { joint with normalLimiter := nl1 }, true)
  else
    (bodies2, { joint with normalLimiter := nl1 }, false)

/-- One joint of `Solver::SolveJointsDisplacementAoS`, including the
early-out `continue` test (`src/Solver.h` line 655). -/
def solveJointDisplacementAoS (iterationIndex : ℤ) (bodies : ℕ → RigidBody)
    (joint : ContactJoint) : (ℕ → RigidBody) × ContactJoint × Bool :=
  if (bodies joint.body1Index).lastDisplacementIteration < iterationIndex - 1 ∧
     (bodies joint.body2Index).lastDisplacementIteration < iterationIndex - 1 then
    (bodies, joint, false)
  else solveJointDisplacementAoSCompute iterationIndex bodies joint

/-- `Solver::SolveJointsDisplacementAoS`: one displacement pass over the
joint list in order. -/
def SolveJointsDisplacementAoS (iterationIndex : ℤ) (bodies : ℕ → RigidBody) :
    List ContactJoint → (ℕ → RigidBody) × List ContactJoint × Bool
  | [] => (bodies, [], false)
  | j :: rest =>
    let r := solveJointDisplacementAoS iterationIndex bodies j
    let rr := SolveJointsDisplacementAoS iterationIndex r.1 rest
    (rr.1, r.2.1 :: rr.2.1, r.2.2 || rr.2.2)

/-- One lane of the template kernel `Solver::SolveJointsImpulsesSoA<VN>`
(`src/Solver.h` lines 736-846): all arithmetic happens on register copies of
the two gathered `SolveBody` records; the one-sided clamp is the branchless
`max`, and the Coulomb cap is the branchless `flipsign`/`select` form. -/
def laneImpulseSoA (iterationIndex : ℤ) (body1 body2 : SolveBody)
    (joint : ContactJoint) : SolveBody × SolveBody × ContactJoint × Bool :=
  let nl := joint.normalLimiter
  let fl := joint.frictionLimiter
  let normaldV := nl.dstVelocity
    - nl.normalProjector1X * body1.velocityX
    - nl.normalProjector1Y * body1.velocityY
    - nl.angularProjector1 * body1.angularVelocity
    - nl.normalProjector2X * body2.velocityX
    - nl.normalProjector2Y * body2.velocityY
    - nl.angularProjector2 * body2.angularVelocity
  let normalDeltaImpulse := max (normaldV * nl.compInvMass) (-nl.accumulatedImpulse)
  let b1vX := body1.velocityX + nl.compMass1_linearX * normalDeltaImpulse
  let b1vY := body1.velocityY + nl.compMass1_linearY * normalDeltaImpulse
  let b1w := body1.angularVelocity + nl.compMass1_angular * normalDeltaImpulse
  let b2vX := body2.velocityX + nl.compMass2_linearX * normalDeltaImpulse
  let b2vY := body2.velocityY + nl.compMass2_linearY * normalDeltaImpulse
  let b2w := body2.angularVelocity + nl.compMass2_angular * normalDeltaImpulse
  let accN := nl.accumulatedImpulse + normalDeltaImpulse
  let frictiondV := (0 : ℚ)
    - fl.normalProjector1X * b1vX
    - fl.normalProjector1Y * b1vY
    - fl.angularProjector1 * b1w
    - fl.normalProjector2X * b2vX
    - fl.normalProjector2Y * b2vY
    - fl.angularProjector2 * b2w
  let frictionDeltaImpulse0 := frictiondV * fl.compInvMass
  let reactionForce := accN
  let accumulatedImpulse := fl.accumulatedImpulse
  let frictionForce := accumulatedImpulse + frictionDeltaImpulse0
  let reactionForceScaled := reactionForce * kFrictionCoefficient
  let frictionForceAbs := |frictionForce|
  let reactionForceScaledSigned := flipsign reactionForceScaled frictionForce
  let frictionDeltaImpulseAdjusted := reactionForceScaledSigned - accumulatedImpulse
  let frictionDeltaImpulse :=
    if frictionForceAbs > reactionForceScaled then frictionDeltaImpulseAdjusted
    else frictionDeltaImpulse0
  let accF := accumulatedImpulse + frictionDeltaImpulse
  let c1vX := b1vX + fl.compMass1_linearX * frictionDeltaImpulse
  let c1vY := b1vY + fl.compMass1_linearY * frictionDeltaImpulse
  let c1w := b1w + fl.compMass1_angular * frictionDeltaImpulse
  let c2vX := b2vX + fl.compMass2_linearX * frictionDeltaImpulse
  let c2vY := b2vY + fl.compMass2_linearY * frictionDeltaImpulse
  let c2w := b2w + fl.compMass2_angular * frictionDeltaImpulse
  let cumulativeImpulse := max |normalDeltaImpulse| |frictionDeltaImpulse|
  let productive : Bool := decide (cumulativeImpulse > kProductiveImpulse)
  let last1 := if productive then iterationIndex else body1.lastIteration
  let last2 := if productive then iterationIndex else body2.lastIteration
  (⟨c1vX, c1vY, c1w, last1⟩, ⟨c2vX, c2vY, c2w, last2⟩,
   { joint with
     normalLimiter := { nl with accumulatedImpulse := accN }
     frictionLimiter := { fl with accumulatedImpulse := accF } },
   productive)

/-- The per-batch early-out test of `SolveJointsImpulsesSoA<VN>`: the batch
is skipped when no lane has `lastIteration > iterationIndex - 2` for either
body. -/
def batchSkipImpulsesSoA (iterationIndex : ℤ) (bodies : ℕ → SolveBody)
    (batch : List ContactJoint) : Bool :=
  batch.all fun j =>
    decide (¬((bodies j.body1Index).lastIteration > iterationIndex - 2 ∨
              (bodies j.body2Index).lastIteration > iterationIndex - 2))

/-- Non-skipped body of one batch of `SolveJointsImpulsesSoA<VN>`: every lane
is gathered from the shared pre-batch store, all lanes compute independently,
then the body1 lanes are scattered back in lane order followed by the body2
lanes (the order of the two `storeindexed4` calls). -/
def solveBatchImpulsesSoACompute (iterationIndex : ℤ) (bodies : ℕ → SolveBody)
    (batch : List ContactJoint) : (ℕ → SolveBody) × List ContactJoint × Bool :=
  let lanes := batch.map fun j =>
    (j, laneImpulseSoA iterationIndex (bodies j.body1Index) (bodies j.body2Index) j)
  let bodies1 := lanes.foldl (fun bs l => updSolveBody bs l.1.body1Index l.2.1) bodies
  let bodies2 := lanes.foldl (fun bs l => updSolveBody bs l.1.body2Index l.2.2.1) bodies1
  (bodies2, lanes.map fun l => l.2.2.2.1, lanes.any fun l => l.2.2.2.2)

/-- One batch of `SolveJointsImpulsesSoA<VN>`, including the per-batch
early-out (`src/Solver.h` lines 729-734). -/
def solveBatchImpulsesSoA (iterationIndex : ℤ) (bodies : ℕ → SolveBody)
    (batch : List ContactJoint) : (ℕ → SolveBody) × List ContactJoint × Bool :=
  if batchSkipImpulsesSoA iterationIndex bodies batch then (bodies, batch, false)
  else solveBatchImpulsesSoACompute iterationIndex bodies batch

/-- `Solver::SolveJointsImpulsesSoA<VN>`: one impulse pass over a range of
packed joints in batches of `VN` lanes.  The source instantiates
`VN ∈ {1, 4, 8}` (and the FMA variant is the same computation at width 16);
the `VN = 0` guard only makes the model total. -/
def SolveJointsImpulsesSoA (VN : ℕ) (iterationIndex : ℤ) (bodies : ℕ → SolveBody) :
    List ContactJoint → (ℕ → SolveBody) × List ContactJoint × Bool
  | [] => (bodies, [], false)
  | j :: rest =>
    if _h : VN = 0 then (bodies, j :: rest, false)
    else
      let r := solveBatchImpulsesSoA iterationIndex bodies ((j :: rest).take VN)
      let rr := SolveJointsImpulsesSoA VN iterationIndex r.1 ((j :: rest).drop VN)
      (rr.1, r.2.1 ++ rr.2.1, r.2.2 || rr.2.2)
  termination_by js => js.length
  decreasing_by
    simp only [List.length_drop, List.length_cons]
    omega

/-- One lane of the template kernel `Solver::SolveJointsDisplacementSoA<VN>`
(`src/Solver.h` lines 1275-1333). -/
def laneDisplacementSoA (iterationIndex : ℤ) (body1 body2 : SolveBody)
    (joint : ContactJoint) : SolveBody × SolveBody × ContactJoint × Bool :=
  let nl := joint.normalLimiter
  let dV := nl.dstDisplacingVelocity
    - nl.normalProjector1X * body1.velocityX
    - nl.normalProjector1Y * body1.velocityY
    - nl.angularProjector1 * body1.angularVelocity
    - nl.normalProjector2X * body2.velocityX
    - nl.normalProjector2Y * body2.velocityY
    - nl.angularProjector2 * body2.angularVelocity
  let displacingDeltaImpulse := max (dV * nl.compInvMass) (-nl.accumulatedDisplacingImpulse)
  let b1vX := body1.velocityX + nl.compMass1_linearX * displacingDeltaImpulse
  let b1vY := body1.velocityY + nl.compMass1_linearY * displacingDeltaImpulse
  let b1w := body1.angularVelocity + nl.compMass1_angular * displacingDeltaImpulse
  let b2vX := body2.velocityX + nl.compMass2_linearX * displacingDeltaImpulse
  let b2vY := body2.velocityY + nl.compMass2_linearY * displacingDeltaImpulse
  let b2w := body2.angularVelocity + nl.compMass2_angular * displacingDeltaImpulse
  let accD := nl.accumulatedDisplacingImpulse + displacingDeltaImpulse
  let productive : Bool := decide (|displacingDeltaImpulse| > kProductiveImpulse)
  let last1 := if productive then iterationIndex else body1.lastIteration
  let last2 := if productive then iterationIndex else body2.lastIteration
  (⟨b1vX, b1vY, b1w, last1⟩, ⟨b2vX, b2vY, b2w, last2⟩,
   { joint with normalLimiter := { nl with accumulatedDisplacingImpulse := accD } },
   productive)

/-- The per-batch early-out test of `SolveJointsDisplacementSoA<VN>`. -/
def batchSkipDisplacementSoA (iterationIndex : ℤ) (bodies : ℕ → SolveBody)
    (batch : List ContactJoint) : Bool :=
  batch.all fun j =>
    decide (¬((bodies j.body1Index).lastIteration > iterationIndex - 2 ∨
              (bodies j.body2Index).lastIteration > iterationIndex - 2))

/-- Non-skipped body of one batch of `SolveJointsDisplacementSoA<VN>`. -/
def solveBatchDisplacementSoACompute (iterationIndex : ℤ) (bodies : ℕ → SolveBody)
    (batch : List ContactJoint) : (ℕ → SolveBody) × List ContactJoint × Bool :=
  let lanes := batch.map fun j =>
    (j, laneDisplacementSoA iterationIndex (bodies j.body1Index) (bodies j.body2Index) j)
  let bodies1 := lanes.foldl (fun bs l => updSolveBody bs l.1.body1Index l.2.1) bodies
  let bodies2 := lanes.foldl (fun bs l => updSolveBody bs l.1.body2Index l.2.2.1) bodies1
  (bodies2, lanes.map fun l => l.2.2.2.1, lanes.any fun l => l.2.2.2.2)

/-- One batch of `SolveJointsDisplacementSoA<VN>`, including the per-batch
early-out. -/
def solveBatchDisplacementSoA (iterationIndex : ℤ) (bodies : ℕ → SolveBody)
    (batch : List ContactJoint) : (ℕ → SolveBody) × List ContactJoint × Bool :=
  if batchSkipDisplacementSoA iterationIndex bodies batch then (bodies, batch, false)
  else solveBatchDisplacementSoACompute iterationIndex bodies batch

/-- `Solver::SolveJointsDisplacementSoA<VN>`: one displacement pass over a
range of packed joints in batches of `VN` lanes. -/
def SolveJointsDisplacementSoA (VN : ℕ) (iterationIndex : ℤ) (bodies : ℕ → SolveBody) :
    List ContactJoint → (ℕ → SolveBody) × List ContactJoint × Bool
  | [] => (bodies, [], false)
  | j :: rest =>
    if _h : VN = 0 then (bodies, j :: rest, false)
    else
      let r := solveBatchDisplacementSoA iterationIndex bodies ((j :: rest).take VN)
      let rr := SolveJointsDisplacementSoA VN iterationIndex r.1 ((j :: rest).drop VN)
      (rr.1, r.2.1 ++ rr.2.1, r.2.2 || rr.2.2)
  termination_by js => js.length
  decreasing_by
    simp only [List.length_drop, List.length_cons]
    omega

/-- The inner scan of one round of `Solver::SolvePrepareIndicesSoA`
(`src/Solver.h` lines 364-384): walk the work list front to back; a joint
whose two body tags are both below the current round tag is accepted (both
bodies stamped, index appended to the group) and removed by
swap-with-last-and-pop; otherwise the cursor advances.  The scan stops when
the group is full or the cursor passes the end.  Returns the body tags, the
remaining work list and the accepted joint indices in acceptance order
(whose length is the source's `groupSize`). -/
def gatherJoints (js : List ContactJoint) (groupSizeTarget tag : ℕ)
    (tags : ℕ → ℕ) (wl : List ℕ) (i : ℕ) (acc : List ℕ) :
    (ℕ → ℕ) × List ℕ × List ℕ :=
  if h : i < wl.length ∧ acc.length < groupSizeTarget then
    let jointIndex := wl.getD i 0
    let joint := js.getD jointIndex default
    if tags joint.body1Index < tag ∧ tags joint.body2Index < tag then
      gatherJoints js groupSizeTarget tag
        (fun b => if b = joint.body2Index then tag else if b = joint.body1Index then tag else tags b)
        ((wl.set i (wl.getD (wl.length - 1) 0)).dropLast) i (acc ++ [jointIndex])
    else
      gatherJoints js groupSizeTarget tag tags wl (i + 1) acc
  else (tags, wl, acc)
  termination_by wl.length - i
  decreasing_by
  · simp only [List.length_dropLast, List.length_set]
    omega
  · omega

/-- The outer round loop of `SolvePrepareIndicesSoA` (`src/Solver.h` lines
357-390): while the work list still holds a full group's worth of joints,
run one scan with a fresh tag; stop after any round that could not fill a
full group.  Returns the accepted joint indices (concatenated round by
round, the prefix of `joint_index` of length `groupOffset`) and the final
work list.  The loop is modelled with explicit fuel; `SolvePrepareIndicesSoA`
supplies `jointCount` fuel, which theorem `grouping_terminates_fuel` shows
is enough for any `groupSizeTarget ≥ 2`. -/
def groupLoop (js : List ContactJoint) (groupSizeTarget : ℕ) :
    ℕ → (ℕ → ℕ) → ℕ → List ℕ → List ℕ × List ℕ
  | 0, _, _, wl => ([], wl)
  | fuel + 1, tags, tag, wl =>
    if groupSizeTarget ≤ wl.length then
      let r := gatherJoints js groupSizeTarget (tag + 1) tags wl 0 []
      if r.2.2.length < groupSizeTarget then (r.2.2, r.2.1)
      else
        let rest := groupLoop js groupSizeTarget fuel r.1 (tag + 1) r.2.1
        (r.2.2 ++ rest.1, rest.2)
    else ([], wl)

/-- `Solver::SolvePrepareIndicesSoA` (`src/Solver.h` lines 329-398): returns
the contents of `joint_index` (a list of `jointCount` joint indices) together
with the returned SIMD-safe prefix length
`(groupOffset / groupSizeTarget) * groupSizeTarget`.  `bodiesCount` sizes the
body tag array in the source; the model's total tag store is zero-initialised
on all of `ℕ`. -/
def SolvePrepareIndicesSoA (js : List ContactJoint) (bodiesCount groupSizeTarget : ℕ) :
    List ℕ × ℕ :=
  let _ := bodiesCount
  let jointCount := js.length
  if groupSizeTarget = 1 then (List.range jointCount, jointCount)
  else
    let r := groupLoop js groupSizeTarget jointCount (fun _ => 0) 0 (List.range jointCount)
    (r.1 ++ r.2, (r.1.length / groupSizeTarget) * groupSizeTarget)

/-- `Solver::SolvePrepareAoS`: reset both last-iteration tags of every body
to `-1`. -/
def SolvePrepareAoS (bodies : ℕ → RigidBody) (bodiesCount : ℕ) : ℕ → RigidBody :=
  fun n => if n < bodiesCount then
    { bodies n with lastIteration := -1, lastDisplacementIteration := -1 }
  else bodies n

/-- The body part of `Solver::SolvePrepareSoA` (`src/Solver.h` lines
435-447): copy each body's impulse channel and displacement channel into the
two `SolveBody` scratch arrays with tags reset to `-1`. -/
def SolvePrepareBodiesSoA (bodies : ℕ → RigidBody) (bodiesCount : ℕ) :
    (ℕ → SolveBody) × (ℕ → SolveBody) :=
  (fun n => if n < bodiesCount then
      ⟨(bodies n).velocityX, (bodies n).velocityY, (bodies n).angularVelocity, -1⟩
    else default,
   fun n => if n < bodiesCount then
      ⟨(bodies n).displacingVelocityX, (bodies n).displacingVelocityY,
       (bodies n).displacingAngularVelocity, -1⟩
    else default)

/-- The packing loop of `SolvePrepareSoA` (`src/Solver.h` lines 457-502):
the joint at logical position `i` is `contactJoints[joint_index[i]]`, every
limiter field copied lane by lane; on this representation packing is
selection by `joint_index`. -/
def packJoints (js : List ContactJoint) (jointIndexList : List ℕ) : List ContactJoint :=
  jointIndexList.map fun idx => js.getD idx default

/-- The unpacking of one joint in `Solver::SolveFinishSoA` (`src/Solver.h`
lines 532-534): only the three accumulators are written back. -/
def writeBackJoint (packed joint : ContactJoint) : ContactJoint :=
  { joint with
    normalLimiter := { joint.normalLimiter with
      accumulatedImpulse := packed.normalLimiter.accumulatedImpulse
      accumulatedDisplacingImpulse := packed.normalLimiter.accumulatedDisplacingImpulse }
    frictionLimiter := { joint.frictionLimiter with
      accumulatedImpulse := packed.frictionLimiter.accumulatedImpulse } }

/-- The write-back loop of `SolveFinishSoA`: position `i` of the packed
blocks updates joint `joint_index[i]`. -/
def writeBackAccumulators (js : List ContactJoint) (jointIndexList : List ℕ)
    (packed : List ContactJoint) : List ContactJoint :=
  (jointIndexList.zip packed).foldl
    (fun cur p => cur.set p.1 (writeBackJoint p.2 (cur.getD p.1 default))) js

/-- `Solver::SolveFinishAoS` (`src/Solver.h` lines 411-426): the
average-iterations diagnostic computed from the body tags through the two
body references of each joint. -/
def SolveFinishAoS (bodies : ℕ → RigidBody) (js : List ContactJoint) : FpVal :=
  let iterationSum : ℤ := js.foldl
    (fun s j =>
      s + (max (bodies j.body1Index).lastIteration (bodies j.body2Index).lastIteration + 2)
        + (max (bodies j.body1Index).lastDisplacementIteration
               (bodies j.body2Index).lastDisplacementIteration + 2)) 0
  fdiv (iterationSum : ℚ) (js.length : ℚ)

/-- `Solver::SolveFinishSoA` (`src/Solver.h` lines 507-552): write the two
scratch body channels back into the body array, write the three accumulators
back into the joints through `joint_index`, and compute the diagnostic from
the scratch tags through the packed body indices. -/
def SolveFinishSoA (bodies : ℕ → RigidBody) (bodiesCount : ℕ) (js : List ContactJoint)
    (jointIndexList : List ℕ) (packed : List ContactJoint)
    (imp disp : ℕ → SolveBody) : (ℕ → RigidBody) × List ContactJoint × FpVal :=
  let bodiesOut := fun n => if n < bodiesCount then
      { bodies n with
        velocityX := (imp n).velocityX
        velocityY := (imp n).velocityY
        angularVelocity := (imp n).angularVelocity
        displacingVelocityX := (disp n).velocityX
        displacingVelocityY := (disp n).velocityY
        displacingAngularVelocity := (disp n).angularVelocity }
    else bodies n
  let jsOut := writeBackAccumulators js jointIndexList packed
  let iterationSum : ℤ := packed.foldl
    (fun s j =>
      s + (max (imp j.body1Index).lastIteration (imp j.body2Index).lastIteration + 2)
        + (max (disp j.body1Index).lastIteration (disp j.body2Index).lastIteration + 2)) 0
  (bodiesOut, jsOut, fdiv (iterationSum : ℚ) (js.length : ℚ))

/-- The iteration loop shape shared by all solve entry points:
`for (i = 0; i < budget; i++) { if (!pass(i)) break; }`. -/
def runPasses {σ : Type} (pass : ℤ → σ → σ × Bool) : ℕ → ℤ → σ → σ
  | 0, _, s => s
  | n + 1, i, s =>
    let r := pass i s
    if r.2 then runPasses pass n (i + 1) r.1 else r.1

/-- Decides whether the iteration loop takes its `break` strictly before the
budget is exhausted (a non-productive pass occurs within the budget). -/
def breaksWithin {σ : Type} (pass : ℤ → σ → σ × Bool) : ℕ → ℤ → σ → Bool
  | 0, _, _ => false
  | n + 1, i, s =>
    let r := pass i s
    if r.2 then breaksWithin pass n (i + 1) r.1 else true

/-- One impulse pass of the AoS driver as a step of `runPasses`. -/
def impulsePassAoS (i : ℤ) (s : (ℕ → RigidBody) × List ContactJoint) :
    ((ℕ → RigidBody) × List ContactJoint) × Bool :=
  let r := SolveJointsImpulsesAoS i s.1 s.2
  ((r.1, r.2.1), r.2.2)

/-- One displacement pass of the AoS driver as a step of `runPasses`. -/
def displacementPassAoS (i : ℤ) (s : (ℕ → RigidBody) × List ContactJoint) :
    ((ℕ → RigidBody) × List ContactJoint) × Bool :=
  let r := SolveJointsDisplacementAoS i s.1 s.2
  ((r.1, r.2.1), r.2.2)

/-- One impulse pass of `SolveJointsSoA_Scalar`: the width-1 kernel over the
whole packed range. -/
def impulsePassSoA1 (i : ℤ) (s : (ℕ → SolveBody) × List ContactJoint) :
    ((ℕ → SolveBody) × List ContactJoint) × Bool :=
  let r := SolveJointsImpulsesSoA 1 i s.1 s.2
  ((r.1, r.2.1), r.2.2)

/-- One displacement pass of `SolveJointsSoA_Scalar`. -/
def displacementPassSoA1 (i : ℤ) (s : (ℕ → SolveBody) × List ContactJoint) :
    ((ℕ → SolveBody) × List ContactJoint) × Bool :=
  let r := SolveJointsDisplacementSoA 1 i s.1 s.2
  ((r.1, r.2.1), r.2.2)

/-- One impulse pass of the SIMD drivers (`SolveJointsSoA_SSE2` with
`VN = 4`, `SolveJointsSoA_AVX2` with `VN = 8`, `SolveJointsSoA_FMA` with
`VN = 16`): the width-`VN` kernel over `[0, groupOffset)` followed by the
width-1 kernel over the tail, productive if either segment was. -/
def impulsePassSoAGrouped (VN groupOffset : ℕ) (i : ℤ)
    (s : (ℕ → SolveBody) × List ContactJoint) :
    ((ℕ → SolveBody) × List ContactJoint) × Bool :=
  let r1 := SolveJointsImpulsesSoA VN i s.1 (s.2.take groupOffset)
  let r2 := SolveJointsImpulsesSoA 1 i r1.1 (s.2.drop groupOffset)
  ((r2.1, r1.2.1 ++ r2.2.1), r1.2.2 || r2.2.2)

/-- One displacement pass of the SIMD drivers. -/
def displacementPassSoAGrouped (VN groupOffset : ℕ) (i : ℤ)
    (s : (ℕ → SolveBody) × List ContactJoint) :
    ((ℕ → SolveBody) × List ContactJoint) × Bool :=
  let r1 := SolveJointsDisplacementSoA VN i s.1 (s.2.take groupOffset)
  let r2 := SolveJointsDisplacementSoA 1 i r1.1 (s.2.drop groupOffset)
  ((r2.1, r1.2.1 ++ r2.2.1), r1.2.2 || r2.2.2)

/-- `Solver::SolveJointsAoS` (`src/Solver.h` lines 152-181): prepare, up to
`contactIterationsCount` impulse passes with early exit, up to
`penetrationIterationsCount` displacement passes with early exit, finish.
Result: final body store, final joints, returned average. -/
def SolveJointsAoS (bodies : ℕ → RigidBody) (bodiesCount : ℕ) (js : List ContactJoint)
    (contactIterationsCount penetrationIterationsCount : ℕ) :
    (ℕ → RigidBody) × List ContactJoint × FpVal :=
  let s0 := (SolvePrepareAoS bodies bodiesCount, js)
  let s1 := runPasses impulsePassAoS contactIterationsCount 0 s0
  let s2 := runPasses displacementPassAoS penetrationIterationsCount 0 s1
  (s2.1, s2.2, SolveFinishAoS s2.1 s2.2)

/-- `Solver::SolveJointsSoA_Scalar` (`src/Solver.h` lines 183-212): prepare
with `groupSizeTarget = 1` (identity packing), width-1 passes over the whole
range, finish. -/
def SolveJointsSoA_Scalar (bodies : ℕ → RigidBody) (bodiesCount : ℕ)
    (js : List ContactJoint)
    (contactIterationsCount penetrationIterationsCount : ℕ) :
    (ℕ → RigidBody) × List ContactJoint × FpVal :=
  let pre := SolvePrepareBodiesSoA bodies bodiesCount
  let jointIndexList := (SolvePrepareIndicesSoA js bodiesCount 1).1
  let packed := packJoints js jointIndexList
  let s1 := runPasses impulsePassSoA1 contactIterationsCount 0 (pre.1, packed)
  let s2 := runPasses displacementPassSoA1 penetrationIterationsCount 0 (pre.2, s1.2)
  SolveFinishSoA bodies bodiesCount js jointIndexList s2.2 s1.1 s2.1

/-- The shared shape of `Solver::SolveJointsSoA_SSE2` / `_AVX2` / `_FMA`
(`src/Solver.h` lines 214-327) at width `VN`: prepare with
`groupSizeTarget = VN`, grouped passes (wide prefix plus scalar tail),
finish. -/
def SolveJointsSoA_SIMD (VN : ℕ) (bodies : ℕ → RigidBody) (bodiesCount : ℕ)
    (js : List ContactJoint)
    (contactIterationsCount penetrationIterationsCount : ℕ) :
    (ℕ → RigidBody) × List ContactJoint × FpVal :=
  let pre := SolvePrepareBodiesSoA bodies bodiesCount
  let r := SolvePrepareIndicesSoA js bodiesCount VN
  let packed := packJoints js r.1
  let s1 := runPasses (impulsePassSoAGrouped VN r.2) contactIterationsCount 0 (pre.1, packed)
  let s2 := runPasses (displacementPassSoAGrouped VN r.2) penetrationIterationsCount 0 (pre.2, s1.2)
  SolveFinishSoA bodies bodiesCount js r.1 s2.2 s1.1 s2.1

theorem foldl_add_shift (f g : ContactJoint → ℤ) (l : List ContactJoint) (a : ℤ) :
    l.foldl (fun s j => s + f j + g j) a = a + (l.map fun j => f j + g j).sum := by
  induction l generalizing a with
  | nil => simp
  | cons x xs ih =>
    simp only [List.foldl_cons, List.map_cons, List.sum_cons]
    rw [ih]
    ring

/-- C7: for every run with `jointCount > 0`, the value returned by
`SolveFinishAoS` equals the sum over all joints of
`(max(b1.lastIteration, b2.lastIteration) + 2) +
(max(b1.lastDisplacementIteration, b2.lastDisplacementIteration) + 2)`
divided by `jointCount`, and `SolveFinishSoA` returns the same formula over
the scratch body tags; the offset is `+2`, not `+1`, in both terms. -/
theorem average_iterations_diagnostic (bodies : ℕ → RigidBody) (js : List ContactJoint)
    (bodiesCount : ℕ) (jointIndexList : List ℕ) (packed : List ContactJoint)
    (imp disp : ℕ → SolveBody) (h : 0 < js.length) :
    SolveFinishAoS bodies js =
      .fin ((((js.map fun j =>
          (max (bodies j.body1Index).lastIteration (bodies j.body2Index).lastIteration + 2)
          + (max (bodies j.body1Index).lastDisplacementIteration
                 (bodies j.body2Index).lastDisplacementIteration + 2)).sum : ℤ) : ℚ)
        / (js.length : ℚ)) ∧
    (SolveFinishSoA bodies bodiesCount js jointIndexList packed imp disp).2.2 =
      .fin ((((packed.map fun j =>
          (max (imp j.body1Index).lastIteration (imp j.body2Index).lastIteration + 2)
          + (max (disp j.body1Index).lastIteration (disp j.body2Index).lastIteration + 2)).sum : ℤ) : ℚ)
        / (js.length : ℚ)) := by
  have hlen : ((js.length : ℚ)) ≠ 0 := Nat.cast_ne_zero.mpr (by omega)
  constructor
  · unfold SolveFinishAoS fdiv
    rw [foldl_add_shift
      (fun j => max (bodies j.body1Index).lastIteration (bodies j.body2Index).lastIteration + 2)
      (fun j => max (bodies j.body1Index).lastDisplacementIteration
        (bodies j.body2Index).lastDisplacementIteration + 2)]
    simp [hlen]
  · unfold SolveFinishSoA fdiv
    rw [foldl_add_shift
      (fun j => max (imp j.body1Index).lastIteration (imp j.body2Index).lastIteration + 2)
      (fun j => max (disp j.body1Index).lastIteration (disp j.body2Index).lastIteration + 2)]
    simp [hlen]

/-- Witness for `average_iterations_diagnostic` at a one-joint scene. -/
theorem average_iterations_diagnostic_witness :
    0 < ([(default : ContactJoint)]).length ∧
    SolveFinishAoS (fun _ => (default : RigidBody)) [default] =
      .fin (((([(default : ContactJoint)].map fun j =>
          (max ((fun _ => (default : RigidBody)) j.body1Index).lastIteration
               ((fun _ => (default : RigidBody)) j.body2Index).lastIteration + 2)
          + (max ((fun _ => (default : RigidBody)) j.body1Index).lastDisplacementIteration
                 ((fun _ => (default : RigidBody)) j.body2Index).lastDisplacementIteration + 2)).sum : ℤ) : ℚ)
        / (([(default : ContactJoint)]).length : ℚ)) :=
  ⟨by decide,
   (average_iterations_diagnostic (fun _ => default) [default] 0 [] []
      (fun _ => default) (fun _ => default) (by decide)).1⟩

theorem runPasses_impulseAoS_nil (C : ℕ) (i : ℤ) (bodies : ℕ → RigidBody) :
    runPasses impulsePassAoS C i (bodies, []) = (bodies, []) := by
  cases C <;> simp [runPasses, impulsePassAoS, SolveJointsImpulsesAoS]

theorem runPasses_displacementAoS_nil (P : ℕ) (i : ℤ) (bodies : ℕ → RigidBody) :
    runPasses displacementPassAoS P i (bodies, []) = (bodies, []) := by
  cases P <;> simp [runPasses, displacementPassAoS, SolveJointsDisplacementAoS]

theorem runPasses_impulseSoA1_nil (C : ℕ) (i : ℤ) (bodies : ℕ → SolveBody) :
    runPasses impulsePassSoA1 C i (bodies, []) = (bodies, []) := by
  cases C <;> simp [runPasses, impulsePassSoA1, SolveJointsImpulsesSoA]

theorem runPasses_displacementSoA1_nil (P : ℕ) (i : ℤ) (bodies : ℕ → SolveBody) :
    runPasses displacementPassSoA1 P i (bodies, []) = (bodies, []) := by
  cases P <;> simp [runPasses, displacementPassSoA1, SolveJointsDisplacementSoA]

theorem runPasses_impulseSoAGrouped_nil (VN off C : ℕ) (i : ℤ) (bodies : ℕ → SolveBody) :
    runPasses (impulsePassSoAGrouped VN off) C i (bodies, []) = (bodies, []) := by
  cases C <;> simp [runPasses, impulsePassSoAGrouped, SolveJointsImpulsesSoA]

theorem runPasses_displacementSoAGrouped_nil (VN off P : ℕ) (i : ℤ) (bodies : ℕ → SolveBody) :
    runPasses (displacementPassSoAGrouped VN off) P i (bodies, []) = (bodies, []) := by
  cases P <;> simp [runPasses, displacementPassSoAGrouped, SolveJointsDisplacementSoA]

/-- `SolvePrepareIndicesSoA` on the empty joint list. -/
theorem prepareIndices_nil (bodiesCount K : ℕ) :
    SolvePrepareIndicesSoA [] bodiesCount K = ([], 0) := by
  by_cases h : K = 1 <;> simp [SolvePrepareIndicesSoA, groupLoop, h]

/-- C9: with zero contact joints (any bodies count, any budgets, any SIMD
width), every solve entry point runs to completion and returns NaN: the
diagnostic divides an iteration sum of 0 by a joint count of 0. -/
theorem empty_scene_nan (bodies : ℕ → RigidBody) (bodiesCount C P VN : ℕ) :
    (SolveJointsAoS bodies bodiesCount [] C P).2.2 = .nan ∧
    (SolveJointsSoA_Scalar bodies bodiesCount [] C P).2.2 = .nan ∧
    (SolveJointsSoA_SIMD VN bodies bodiesCount [] C P).2.2 = .nan := by
  refine ⟨?_, ?_, ?_⟩
  · simp only [SolveJointsAoS, runPasses_impulseAoS_nil, runPasses_displacementAoS_nil]
    simp [SolveFinishAoS, fdiv]
  · simp only [SolveJointsSoA_Scalar, prepareIndices_nil, packJoints, List.map_nil,
      runPasses_impulseSoA1_nil, runPasses_displacementSoA1_nil]
    simp [SolveFinishSoA, fdiv, writeBackAccumulators]
  · simp only [SolveJointsSoA_SIMD, prepareIndices_nil, packJoints, List.map_nil,
      runPasses_impulseSoAGrouped_nil, runPasses_displacementSoAGrouped_nil]
    simp [SolveFinishSoA, fdiv, writeBackAccumulators]

/-- C5: in the AoS impulse kernel and the width-1 SoA impulse kernel, a
joint is skipped — bodies, accumulators and tags untouched, productive flag
false — exactly when `max(body1.lastIteration, body2.lastIteration) ≤
iterationIndex - 2` when it is visited; otherwise the full per-joint
computation runs.  The analogous rule with `lastDisplacementIteration` holds
for the displacement kernels. -/
theorem early_out_skip_rule (i : ℤ) (bodiesA : ℕ → RigidBody)
    (bodiesS : ℕ → SolveBody) (j : ContactJoint) :
    (solveJointImpulseAoS i bodiesA j =
      if max (bodiesA j.body1Index).lastIteration (bodiesA j.body2Index).lastIteration ≤ i - 2
      then (bodiesA, j, false) else solveJointImpulseAoSCompute i bodiesA j) ∧
    (solveBatchImpulsesSoA i bodiesS [j] =
      if max (bodiesS j.body1Index).lastIteration (bodiesS j.body2Index).lastIteration ≤ i - 2
      then (bodiesS, [j], false) else solveBatchImpulsesSoACompute i bodiesS [j]) ∧
    (solveJointDisplacementAoS i bodiesA j =
      if max (bodiesA j.body1Index).lastDisplacementIteration
             (bodiesA j.body2Index).lastDisplacementIteration ≤ i - 2
      then (bodiesA, j, false) else solveJointDisplacementAoSCompute i bodiesA j) ∧
    (solveBatchDisplacementSoA i bodiesS [j] =
      if max (bodiesS j.body1Index).lastIteration (bodiesS j.body2Index).lastIteration ≤ i - 2
      then (bodiesS, [j], false) else solveBatchDisplacementSoACompute i bodiesS [j]) := by
  refine ⟨?_, ?_, ?_, ?_⟩
  · unfold solveJointImpulseAoS
    by_cases h : max (bodiesA j.body1Index).lastIteration (bodiesA j.body2Index).lastIteration ≤ i - 2
    · rw [if_pos h, if_pos (by omega)]
    · rw [if_neg h, if_neg (by omega)]
  · unfold solveBatchImpulsesSoA batchSkipImpulsesSoA
    by_cases h : max (bodiesS j.body1Index).lastIteration (bodiesS j.body2Index).lastIteration ≤ i - 2
    · rw [if_pos h, if_pos (by simp; omega)]
    · rw [if_neg h, if_neg (by simp; omega)]
  · unfold solveJointDisplacementAoS
    by_cases h : max (bodiesA j.body1Index).lastDisplacementIteration
        (bodiesA j.body2Index).lastDisplacementIteration ≤ i - 2
    · rw [if_pos h, if_pos (by omega)]
    · rw [if_neg h, if_neg (by omega)]
  · unfold solveBatchDisplacementSoA batchSkipDisplacementSoA
    by_cases h : max (bodiesS j.body1Index).lastIteration (bodiesS j.body2Index).lastIteration ≤ i - 2
    · rw [if_pos h, if_pos (by simp; omega)]
    · rw [if_neg h, if_neg (by simp; omega)]

/-- Decidable per-joint form of the P1 accumulator invariants:
`normal.accumulatedImpulse ≥ 0`, `normal.accumulatedDisplacingImpulse ≥ 0`,
`|friction.accumulatedImpulse| ≤ μ · normal.accumulatedImpulse`. -/
def jointAccInvariantB (j : ContactJoint) : Bool :=
  decide (0 ≤ j.normalLimiter.accumulatedImpulse) &&
  decide (0 ≤ j.normalLimiter.accumulatedDisplacingImpulse) &&
  decide (|j.frictionLimiter.accumulatedImpulse| ≤
    kFrictionCoefficient * j.normalLimiter.accumulatedImpulse)

theorem clampedNormalMax_nonneg (acc raw : ℚ) : 0 ≤ acc + max raw (-acc) := by
  have := le_max_right raw (-acc)
  linarith

theorem clampedNormalIf_nonneg (acc raw : ℚ) :
    0 ≤ acc + (if raw + acc < 0 then -acc else raw) := by
  split_ifs with h
  · linarith
  · linarith

theorem frictionSelect_bound (r accF df0 : ℚ) (hN : 0 ≤ r) :
    |accF + (if |accF + df0| > r * kFrictionCoefficient
             then (if accF + df0 < 0 then -(r * kFrictionCoefficient)
                   else r * kFrictionCoefficient) - accF
             else df0)| ≤ kFrictionCoefficient * r := by
  have hc : 0 ≤ r * kFrictionCoefficient := by
    have : (0 : ℚ) ≤ kFrictionCoefficient := by norm_num [kFrictionCoefficient]
    positivity
  split_ifs with h1 h2
  · rw [show accF + (-(r * kFrictionCoefficient) - accF) = -(r * kFrictionCoefficient) by ring,
      abs_neg, abs_of_nonneg hc, mul_comm]
  · rw [show accF + (r * kFrictionCoefficient - accF) = r * kFrictionCoefficient by ring,
      abs_of_nonneg hc, mul_comm]
  · push_neg at h1
    rw [mul_comm] at h1
    exact h1

theorem frictionBranch_bound (r accF df0 : ℚ) (hN : 0 ≤ r) :
    |accF + (if |accF + df0| > r * kFrictionCoefficient
             then (if accF + df0 > 0 then (1 : ℚ) else -1) * r * kFrictionCoefficient - accF
             else df0)| ≤ kFrictionCoefficient * r := by
  have hc : 0 ≤ r * kFrictionCoefficient := by
    have : (0 : ℚ) ≤ kFrictionCoefficient := by norm_num [kFrictionCoefficient]
    positivity
  split_ifs with h1 h2
  · rw [show accF + (1 * r * kFrictionCoefficient - accF) = r * kFrictionCoefficient by ring,
      abs_of_nonneg hc, mul_comm]
  · rw [show accF + (-1 * r * kFrictionCoefficient - accF) = -(r * kFrictionCoefficient) by ring,
      abs_neg, abs_of_nonneg hc, mul_comm]
  · push_neg at h1
    rw [mul_comm] at h1
    exact h1

theorem ite_triple_mid {α β γ : Type} (c : Prop) [Decidable c] (a b : α) (jv : β) (x y : γ) :
    (if c then (a, jv, x) else (b, jv, y)).2.1 = jv := by
  split_ifs <;> rfl

/-- The impulse lane keeps `normal.acc ≥ 0` and the Coulomb bound without any
entry hypothesis, and leaves the displacing accumulator untouched. -/
theorem laneImpulseSoA_acc (i : ℤ) (b1 b2 : SolveBody) (j : ContactJoint)
    (h : jointAccInvariantB j = true) :
    jointAccInvariantB (laneImpulseSoA i b1 b2 j).2.2.1 = true := by
  simp only [jointAccInvariantB, Bool.and_eq_true, decide_eq_true_eq] at h ⊢
  obtain ⟨⟨hN, hD⟩, hF⟩ := h
  simp only [laneImpulseSoA, flipsign]
  refine ⟨⟨clampedNormalMax_nonneg _ _, hD⟩, ?_⟩
  exact frictionSelect_bound _ _ _ (clampedNormalMax_nonneg _ _)

/-- The displacement lane keeps `normal.accD ≥ 0` without any entry
hypothesis and leaves the other two accumulators untouched. -/
theorem laneDisplacementSoA_acc (i : ℤ) (b1 b2 : SolveBody) (j : ContactJoint)
    (h : jointAccInvariantB j = true) :
    jointAccInvariantB (laneDisplacementSoA i b1 b2 j).2.2.1 = true := by
  simp only [jointAccInvariantB, Bool.and_eq_true, decide_eq_true_eq] at h ⊢
  obtain ⟨⟨hN, hD⟩, hF⟩ := h
  simp only [laneDisplacementSoA]
  exact ⟨⟨hN, clampedNormalMax_nonneg _ _⟩, hF⟩

/-- One AoS impulse joint preserves the accumulator invariants. -/
theorem solveJointImpulseAoS_acc (i : ℤ) (bodies : ℕ → RigidBody) (j : ContactJoint)
    (h : jointAccInvariantB j = true) :
    jointAccInvariantB (solveJointImpulseAoS i bodies j).2.1 = true := by
  unfold solveJointImpulseAoS
  split_ifs with hskip
  · exact h
  · simp only [jointAccInvariantB, Bool.and_eq_true, decide_eq_true_eq] at h ⊢
    obtain ⟨⟨hN, hD⟩, hF⟩ := h
    simp only [solveJointImpulseAoSCompute, ite_triple_mid]
    refine ⟨⟨clampedNormalIf_nonneg _ _, hD⟩, ?_⟩
    exact frictionBranch_bound _ _ _ (clampedNormalIf_nonneg _ _)

/-- One AoS displacement joint preserves the accumulator invariants. -/
theorem solveJointDisplacementAoS_acc (i : ℤ) (bodies : ℕ → RigidBody) (j : ContactJoint)
    (h : jointAccInvariantB j = true) :
    jointAccInvariantB (solveJointDisplacementAoS i bodies j).2.1 = true := by
  unfold solveJointDisplacementAoS
  split_ifs with hskip
  · exact h
  · simp only [jointAccInvariantB, Bool.and_eq_true, decide_eq_true_eq] at h ⊢
    obtain ⟨⟨hN, hD⟩, hF⟩ := h
    simp only [solveJointDisplacementAoSCompute, ite_triple_mid]
    exact ⟨⟨hN, clampedNormalIf_nonneg _ _⟩, hF⟩

theorem passImpulsesAoS_acc (i : ℤ) (bodies : ℕ → RigidBody) (js : List ContactJoint)
    (h : js.all jointAccInvariantB = true) :
    (SolveJointsImpulsesAoS i bodies js).2.1.all jointAccInvariantB = true := by
  induction js generalizing bodies with
  | nil => simp [SolveJointsImpulsesAoS]
  | cons j rest ih =>
    simp only [List.all_cons, Bool.and_eq_true] at h
    simp only [SolveJointsImpulsesAoS, List.all_cons, Bool.and_eq_true]
    exact ⟨solveJointImpulseAoS_acc i bodies j h.1, ih _ h.2⟩

theorem passDisplacementAoS_acc (i : ℤ) (bodies : ℕ → RigidBody) (js : List ContactJoint)
    (h : js.all jointAccInvariantB = true) :
    (SolveJointsDisplacementAoS i bodies js).2.1.all jointAccInvariantB = true := by
  induction js generalizing bodies with
  | nil => simp [SolveJointsDisplacementAoS]
  | cons j rest ih =>
    simp only [List.all_cons, Bool.and_eq_true] at h
    simp only [SolveJointsDisplacementAoS, List.all_cons, Bool.and_eq_true]
    exact ⟨solveJointDisplacementAoS_acc i bodies j h.1, ih _ h.2⟩

theorem batchImpulsesSoA_acc (i : ℤ) (bodies : ℕ → SolveBody) (batch : List ContactJoint)
    (h : batch.all jointAccInvariantB = true) :
    (solveBatchImpulsesSoA i bodies batch).2.1.all jointAccInvariantB = true := by
  unfold solveBatchImpulsesSoA
  split_ifs with hskip
  · exact h
  · unfold solveBatchImpulsesSoACompute
    simp only [List.all_eq_true] at h ⊢
    intro x hx
    simp only [List.map_map, List.mem_map, Function.comp] at hx
    obtain ⟨jj, hjj, rfl⟩ := hx
    exact laneImpulseSoA_acc i _ _ jj (h jj hjj)

theorem batchDisplacementSoA_acc (i : ℤ) (bodies : ℕ → SolveBody) (batch : List ContactJoint)
    (h : batch.all jointAccInvariantB = true) :
    (solveBatchDisplacementSoA i bodies batch).2.1.all jointAccInvariantB = true := by
  unfold solveBatchDisplacementSoA
  split_ifs with hskip
  · exact h
  · unfold solveBatchDisplacementSoACompute
    simp only [List.all_eq_true] at h ⊢
    intro x hx
    simp only [List.map_map, List.mem_map, Function.comp] at hx
    obtain ⟨jj, hjj, rfl⟩ := hx
    exact laneDisplacementSoA_acc i _ _ jj (h jj hjj)

theorem passImpulsesSoA_acc (VN : ℕ) (i : ℤ) :
    ∀ (n : ℕ) (js : List ContactJoint), js.length ≤ n → ∀ (bodies : ℕ → SolveBody),
      js.all jointAccInvariantB = true →
      (SolveJointsImpulsesSoA VN i bodies js).2.1.all jointAccInvariantB = true := by
  intro n
  induction n with
  | zero =>
    intro js hlen bodies h
    have hjs : js = [] := List.eq_nil_of_length_eq_zero (Nat.le_zero.mp hlen)
    subst hjs
    simp [SolveJointsImpulsesSoA]
  | succ n ih =>
    intro js hlen bodies h
    match js with
    | [] => simp [SolveJointsImpulsesSoA]
    | j :: rest =>
      rw [SolveJointsImpulsesSoA]
      split
      · simpa using h
      · rename_i hVN
        simp only [List.all_append, Bool.and_eq_true]
        constructor
        · apply batchImpulsesSoA_acc
          simp only [List.all_eq_true] at h ⊢
          intro x hx
          exact h x (List.take_subset _ _ hx)
        · apply ih
          · simp only [List.length_drop, List.length_cons] at hlen ⊢
            omega
          · simp only [List.all_eq_true] at h ⊢
            intro x hx
            exact h x (List.drop_subset _ _ hx)

theorem passDisplacementSoA_acc (VN : ℕ) (i : ℤ) :
    ∀ (n : ℕ) (js : List ContactJoint), js.length ≤ n → ∀ (bodies : ℕ → SolveBody),
      js.all jointAccInvariantB = true →
      (SolveJointsDisplacementSoA VN i bodies js).2.1.all jointAccInvariantB = true := by
  intro n
  induction n with
  | zero =>
    intro js hlen bodies h
    have hjs : js = [] := List.eq_nil_of_length_eq_zero (Nat.le_zero.mp hlen)
    subst hjs
    simp [SolveJointsDisplacementSoA]
  | succ n ih =>
    intro js hlen bodies h
    match js with
    | [] => simp [SolveJointsDisplacementSoA]
    | j :: rest =>
      rw [SolveJointsDisplacementSoA]
      split
      · simpa using h
      · rename_i hVN
        simp only [List.all_append, Bool.and_eq_true]
        constructor
        · apply batchDisplacementSoA_acc
          simp only [List.all_eq_true] at h ⊢
          intro x hx
          exact h x (List.take_subset _ _ hx)
        · apply ih
          · simp only [List.length_drop, List.length_cons] at hlen ⊢
            omega
          · simp only [List.all_eq_true] at h ⊢
            intro x hx
            exact h x (List.drop_subset _ _ hx)

/-- C2: after one impulse pass and one displacement pass of the AoS kernels
and of the SoA template kernel at any lane width, every joint satisfies
`normal.acc ≥ 0`, `normal.accD ≥ 0`, and
`|friction.acc| ≤ 0.3 · normal.acc` (exactly, in the exact-arithmetic
embedding), provided the accumulators satisfied those bounds on entry. -/
theorem accumulator_sign_invariant (i : ℤ) (VN : ℕ) (bodiesA : ℕ → RigidBody)
    (bodiesS : ℕ → SolveBody) (js : List ContactJoint)
    (h : js.all jointAccInvariantB = true) :
    (SolveJointsImpulsesAoS i bodiesA js).2.1.all jointAccInvariantB = true ∧
    (SolveJointsDisplacementAoS i bodiesA js).2.1.all jointAccInvariantB = true ∧
    (SolveJointsImpulsesSoA VN i bodiesS js).2.1.all jointAccInvariantB = true ∧
    (SolveJointsDisplacementSoA VN i bodiesS js).2.1.all jointAccInvariantB = true :=
  ⟨passImpulsesAoS_acc i bodiesA js h,
   passDisplacementAoS_acc i bodiesA js h,
   passImpulsesSoA_acc VN i js.length js le_rfl bodiesS h,
   passDisplacementSoA_acc VN i js.length js le_rfl bodiesS h⟩

/-- Witness for `accumulator_sign_invariant` at a concrete one-joint scene. -/
theorem accumulator_sign_invariant_witness :
    ([(default : ContactJoint)]).all jointAccInvariantB = true ∧
    (SolveJointsImpulsesSoA 4 0 (fun _ => (default : SolveBody))
      [(default : ContactJoint)]).2.1.all jointAccInvariantB = true :=
  ⟨by with_unfolding_all decide,
   (accumulator_sign_invariant 0 4 (fun _ => (default : RigidBody))
     (fun _ => (default : SolveBody)) [default] (by with_unfolding_all decide)).2.2.1⟩

/-- If the iteration loop breaks via a non-productive pass within budget
`n`, any larger budget runs exactly the same passes and stops in the same
state. -/
theorem runPasses_breaks_stable {σ : Type} (pass : ℤ → σ → σ × Bool) :
    ∀ (n m : ℕ) (i : ℤ) (s : σ), breaksWithin pass n i s = true →
      runPasses pass (n + m) i s = runPasses pass n i s := by
  intro n
  induction n with
  | zero =>
    intro m i s h
    simp [breaksWithin] at h
  | succ n ih =>
    intro m i s h
    rw [show n + 1 + m = (n + m) + 1 by ring]
    simp only [runPasses, breaksWithin] at h ⊢
    cases hp : (pass i s).2 with
    | false => simp [hp]
    | true =>
      simp only [hp, if_true] at h ⊢
      exact ih m (i + 1) (pass i s).1 h

/-- C6: if a driver terminates its impulse loop and its displacement loop
early via a non-productive pass within budgets `(C, P)`, then running with
budgets `(C + 10, P + 10)` performs exactly the same passes and produces
identical final body state, joints, and returned average.  Stated for every
backend: the AoS driver, the SoA-scalar driver, and the grouped SIMD driver
at every lane width `VN` (the source instantiates `VN ∈ {4, 8, 16}` for
SSE2/AVX2/FMA). -/
theorem early_exit_fidelity (VN : ℕ) (bodies : ℕ → RigidBody) (bodiesCount : ℕ)
    (js : List ContactJoint) (C P : ℕ)
    (hA1 : breaksWithin impulsePassAoS C 0 (SolvePrepareAoS bodies bodiesCount, js) = true)
    (hA2 : breaksWithin displacementPassAoS P 0
      (runPasses impulsePassAoS C 0 (SolvePrepareAoS bodies bodiesCount, js)) = true)
    (hS1 : breaksWithin impulsePassSoA1 C 0
      ((SolvePrepareBodiesSoA bodies bodiesCount).1,
       packJoints js (SolvePrepareIndicesSoA js bodiesCount 1).1) = true)
    (hS2 : breaksWithin displacementPassSoA1 P 0
      ((SolvePrepareBodiesSoA bodies bodiesCount).2,
       (runPasses impulsePassSoA1 C 0
         ((SolvePrepareBodiesSoA bodies bodiesCount).1,
          packJoints js (SolvePrepareIndicesSoA js bodiesCount 1).1)).2) = true)
    (hG1 : breaksWithin
      (impulsePassSoAGrouped VN (SolvePrepareIndicesSoA js bodiesCount VN).2) C 0
      ((SolvePrepareBodiesSoA bodies bodiesCount).1,
       packJoints js (SolvePrepareIndicesSoA js bodiesCount VN).1) = true)
    (hG2 : breaksWithin
      (displacementPassSoAGrouped VN (SolvePrepareIndicesSoA js bodiesCount VN).2) P 0
      ((SolvePrepareBodiesSoA bodies bodiesCount).2,
       (runPasses (impulsePassSoAGrouped VN (SolvePrepareIndicesSoA js bodiesCount VN).2) C 0
         ((SolvePrepareBodiesSoA bodies bodiesCount).1,
          packJoints js (SolvePrepareIndicesSoA js bodiesCount VN).1)).2) = true) :
    SolveJointsAoS bodies bodiesCount js (C + 10) (P + 10) =
      SolveJointsAoS bodies bodiesCount js C P ∧
    SolveJointsSoA_Scalar bodies bodiesCount js (C + 10) (P + 10) =
      SolveJointsSoA_Scalar bodies bodiesCount js C P ∧
    SolveJointsSoA_SIMD VN bodies bodiesCount js (C + 10) (P + 10) =
      SolveJointsSoA_SIMD VN bodies bodiesCount js C P := by
  refine ⟨?_, ?_, ?_⟩
  · simp only [SolveJointsAoS]
    rw [runPasses_breaks_stable impulsePassAoS C 10 0 _ hA1,
        runPasses_breaks_stable displacementPassAoS P 10 0 _ hA2]
  · simp only [SolveJointsSoA_Scalar]
    rw [runPasses_breaks_stable impulsePassSoA1 C 10 0 _ hS1,
        runPasses_breaks_stable displacementPassSoA1 P 10 0 _ hS2]
  · simp only [SolveJointsSoA_SIMD]
    rw [runPasses_breaks_stable
          (impulsePassSoAGrouped VN (SolvePrepareIndicesSoA js bodiesCount VN).2)
          C 10 0 _ hG1,
        runPasses_breaks_stable
          (displacementPassSoAGrouped VN (SolvePrepareIndicesSoA js bodiesCount VN).2)
          P 10 0 _ hG2]

/-- Witness for `early_exit_fidelity`: the empty scene breaks both loops of
every backend at iteration 0 inside budgets `(1, 1)`; width `4` (SSE2)
stands for the SIMD drivers. -/
theorem early_exit_fidelity_witness :
    breaksWithin impulsePassAoS 1 0
      (SolvePrepareAoS (fun _ => (default : RigidBody)) 0, []) = true ∧
    SolveJointsAoS (fun _ => (default : RigidBody)) 0 [] (1 + 10) (1 + 10) =
      SolveJointsAoS (fun _ => (default : RigidBody)) 0 [] 1 1 ∧
    SolveJointsSoA_SIMD 4 (fun _ => (default : RigidBody)) 0 [] (1 + 10) (1 + 10) =
      SolveJointsSoA_SIMD 4 (fun _ => (default : RigidBody)) 0 [] 1 1 := by
  have h := early_exit_fidelity 4 (fun _ => default) 0 [] 1 1 rfl rfl
    (by simp [breaksWithin, impulsePassSoA1, SolveJointsImpulsesSoA,
          prepareIndices_nil, packJoints])
    (by simp [breaksWithin, impulsePassSoA1, displacementPassSoA1,
          SolveJointsImpulsesSoA, SolveJointsDisplacementSoA, runPasses,
          prepareIndices_nil, packJoints])
    (by simp [breaksWithin, impulsePassSoAGrouped, SolveJointsImpulsesSoA,
          prepareIndices_nil, packJoints])
    (by simp [breaksWithin, impulsePassSoAGrouped, displacementPassSoAGrouped,
          SolveJointsImpulsesSoA, SolveJointsDisplacementSoA, runPasses,
          prepareIndices_nil, packJoints])
  exact ⟨rfl, h.1, h.2.2⟩

theorem updBody_self (bs : ℕ → RigidBody) (idx : ℕ) : updBody bs idx (bs idx) = bs := by
  funext n
  unfold updBody
  split_ifs with h
  · rw [h]
  · rfl

theorem updSolveBody_self (bs : ℕ → SolveBody) (idx : ℕ) :
    updSolveBody bs idx (bs idx) = bs := by
  funext n
  unfold updSolveBody
  split_ifs with h
  · rw [h]
  · rfl

theorem solveJointImpulseAoSCompute_degenerate (i : ℤ) (bs : ℕ → RigidBody)
    (j : ContactJoint)
    (hn : j.normalLimiter.compInvMass = 0)
    (hf : j.frictionLimiter.compInvMass = 0)
    (haccN : 0 ≤ j.normalLimiter.accumulatedImpulse)
    (haccF : |j.frictionLimiter.accumulatedImpulse| ≤
      kFrictionCoefficient * j.normalLimiter.accumulatedImpulse) :
    solveJointImpulseAoSCompute i bs j = (bs, j, false) := by
  obtain ⟨b1i, b2i, nl, fl⟩ := j
  obtain ⟨np1x, np1y, np2x, np2y, ap1, ap2, cm1x, cm1y, cm2x, cm2y, cm1a, cm2a,
    cim, acc, dv, ddv, dacc⟩ := nl
  obtain ⟨fp1x, fp1y, fp2x, fp2y, fa1, fa2, fm1x, fm1y, fm2x, fm2y, fm1a, fm2a,
    fcim, facc⟩ := fl
  simp only at hn hf haccN haccF
  subst hn
  subst hf
  have h1 : ¬(acc < 0) := not_lt.mpr haccN
  have h2 : ¬(|facc| > acc * kFrictionCoefficient) := by
    rw [gt_iff_lt, mul_comm]
    exact not_lt.mpr haccF
  have h3 : ¬((0 : ℚ) > kProductiveImpulse) := by norm_num [kProductiveImpulse]
  simp only [solveJointImpulseAoSCompute, mul_zero, zero_add, add_zero, h1,
    if_false, updBody_self, abs_zero, max_self, h2, h3, ite_false, zero_sub, sub_zero]

theorem solveJointImpulseAoS_degenerate (i : ℤ) (bs : ℕ → RigidBody)
    (j : ContactJoint)
    (hn : j.normalLimiter.compInvMass = 0)
    (hf : j.frictionLimiter.compInvMass = 0)
    (haccN : 0 ≤ j.normalLimiter.accumulatedImpulse)
    (haccF : |j.frictionLimiter.accumulatedImpulse| ≤
      kFrictionCoefficient * j.normalLimiter.accumulatedImpulse) :
    solveJointImpulseAoS i bs j = (bs, j, false) := by
  unfold solveJointImpulseAoS
  split_ifs with h
  · rfl
  · exact solveJointImpulseAoSCompute_degenerate i bs j hn hf haccN haccF

theorem solveJointDisplacementAoSCompute_degenerate (i : ℤ) (bs : ℕ → RigidBody)
    (j : ContactJoint)
    (hn : j.normalLimiter.compInvMass = 0)
    (haccD : 0 ≤ j.normalLimiter.accumulatedDisplacingImpulse) :
    solveJointDisplacementAoSCompute i bs j = (bs, j, false) := by
  obtain ⟨b1i, b2i, nl, fl⟩ := j
  obtain ⟨np1x, np1y, np2x, np2y, ap1, ap2, cm1x, cm1y, cm2x, cm2y, cm1a, cm2a,
    cim, acc, dv, ddv, dacc⟩ := nl
  simp only at hn haccD
  subst hn
  have h1 : ¬(dacc < 0) := not_lt.mpr haccD
  have h3 : ¬(|(0 : ℚ)| > kProductiveImpulse) := by norm_num [kProductiveImpulse]
  simp only [solveJointDisplacementAoSCompute, mul_zero, zero_add, add_zero, h1,
    if_false, updBody_self, h3, ite_false]

theorem solveJointDisplacementAoS_degenerate (i : ℤ) (bs : ℕ → RigidBody)
    (j : ContactJoint)
    (hn : j.normalLimiter.compInvMass = 0)
    (haccD : 0 ≤ j.normalLimiter.accumulatedDisplacingImpulse) :
    solveJointDisplacementAoS i bs j = (bs, j, false) := by
  unfold solveJointDisplacementAoS
  split_ifs with h
  · rfl
  · exact solveJointDisplacementAoSCompute_degenerate i bs j hn haccD

theorem laneImpulseSoA_degenerate (i : ℤ) (b1 b2 : SolveBody) (j : ContactJoint)
    (hn : j.normalLimiter.compInvMass = 0)
    (hf : j.frictionLimiter.compInvMass = 0)
    (haccN : 0 ≤ j.normalLimiter.accumulatedImpulse)
    (haccF : |j.frictionLimiter.accumulatedImpulse| ≤
      kFrictionCoefficient * j.normalLimiter.accumulatedImpulse) :
    laneImpulseSoA i b1 b2 j = (b1, b2, j, false) := by
  obtain ⟨b1i, b2i, nl, fl⟩ := j
  obtain ⟨np1x, np1y, np2x, np2y, ap1, ap2, cm1x, cm1y, cm2x, cm2y, cm1a, cm2a,
    cim, acc, dv, ddv, dacc⟩ := nl
  obtain ⟨fp1x, fp1y, fp2x, fp2y, fa1, fa2, fm1x, fm1y, fm2x, fm2y, fm1a, fm2a,
    fcim, facc⟩ := fl
  simp only at hn hf haccN haccF
  subst hn
  subst hf
  have h1 : max (0 : ℚ) (-acc) = 0 := max_eq_left (neg_nonpos.mpr haccN)
  have h2 : ¬(|facc| > acc * kFrictionCoefficient) := by
    rw [gt_iff_lt, mul_comm]
    exact not_lt.mpr haccF
  have h3 : decide ((max |(0 : ℚ)| |(0 : ℚ)|) > kProductiveImpulse) = false := by
    rw [decide_eq_false_iff_not]
    norm_num [kProductiveImpulse]
  simp only [laneImpulseSoA, mul_zero, zero_add, add_zero, h1, h2, ite_false,
    if_false, h3, Bool.false_eq_true]

theorem laneDisplacementSoA_degenerate (i : ℤ) (b1 b2 : SolveBody) (j : ContactJoint)
    (hn : j.normalLimiter.compInvMass = 0)
    (haccD : 0 ≤ j.normalLimiter.accumulatedDisplacingImpulse) :
    laneDisplacementSoA i b1 b2 j = (b1, b2, j, false) := by
  obtain ⟨b1i, b2i, nl, fl⟩ := j
  obtain ⟨np1x, np1y, np2x, np2y, ap1, ap2, cm1x, cm1y, cm2x, cm2y, cm1a, cm2a,
    cim, acc, dv, ddv, dacc⟩ := nl
  simp only at hn haccD
  subst hn
  have h1 : max (0 : ℚ) (-dacc) = 0 := max_eq_left (neg_nonpos.mpr haccD)
  have h3 : decide (|(0 : ℚ)| > kProductiveImpulse) = false := by
    rw [decide_eq_false_iff_not]
    norm_num [kProductiveImpulse]
  simp only [laneDisplacementSoA, mul_zero, zero_add, add_zero, h1, h3,
    Bool.false_eq_true, if_false]

/-- C8: for a joint whose both limiters have `compInvMass = 0` and whose
accumulators satisfy the P1 invariants, every impulse and displacement
kernel computes a delta of exactly 0: the AoS compute paths and the SoA
lanes return the body state, the joint, and a false productive flag
unchanged; consequently the AoS driver on a scene holding only that joint
returns an average of 2 (a single unproductive pass per channel). -/
theorem degenerate_joint_neutrality (i : ℤ) (bodies bs : ℕ → RigidBody)
    (sb1 sb2 : SolveBody) (bodiesCount C P : ℕ) (j : ContactJoint)
    (hn : j.normalLimiter.compInvMass = 0)
    (hf : j.frictionLimiter.compInvMass = 0)
    (haccN : 0 ≤ j.normalLimiter.accumulatedImpulse)
    (haccD : 0 ≤ j.normalLimiter.accumulatedDisplacingImpulse)
    (haccF : |j.frictionLimiter.accumulatedImpulse| ≤
      kFrictionCoefficient * j.normalLimiter.accumulatedImpulse)
    (_hC : 1 ≤ C) (_hP : 1 ≤ P)
    (hb1 : j.body1Index < bodiesCount) (hb2 : j.body2Index < bodiesCount) :
    solveJointImpulseAoSCompute i bs j = (bs, j, false) ∧
    solveJointDisplacementAoSCompute i bs j = (bs, j, false) ∧
    laneImpulseSoA i sb1 sb2 j = (sb1, sb2, j, false) ∧
    laneDisplacementSoA i sb1 sb2 j = (sb1, sb2, j, false) ∧
    (SolveJointsAoS bodies bodiesCount [j] C P).2.2 = .fin 2 := by
  refine ⟨solveJointImpulseAoSCompute_degenerate i bs j hn hf haccN haccF,
    solveJointDisplacementAoSCompute_degenerate i bs j hn haccD,
    laneImpulseSoA_degenerate i sb1 sb2 j hn hf haccN haccF,
    laneDisplacementSoA_degenerate i sb1 sb2 j hn haccD, ?_⟩
  have passI : ∀ (k : ℤ) (cur : ℕ → RigidBody),
      impulsePassAoS k (cur, [j]) = ((cur, [j]), false) := by
    intro k cur
    simp [impulsePassAoS, SolveJointsImpulsesAoS,
      solveJointImpulseAoS_degenerate k cur j hn hf haccN haccF]
  have passD : ∀ (k : ℤ) (cur : ℕ → RigidBody),
      displacementPassAoS k (cur, [j]) = ((cur, [j]), false) := by
    intro k cur
    simp [displacementPassAoS, SolveJointsDisplacementAoS,
      solveJointDisplacementAoS_degenerate k cur j hn haccD]
  have runI : ∀ (c : ℕ) (k : ℤ) (cur : ℕ → RigidBody),
      runPasses impulsePassAoS c k (cur, [j]) = (cur, [j]) := by
    intro c k cur
    cases c with
    | zero => rfl
    | succ n => simp [runPasses, passI]
  have runD : ∀ (c : ℕ) (k : ℤ) (cur : ℕ → RigidBody),
      runPasses displacementPassAoS c k (cur, [j]) = (cur, [j]) := by
    intro c k cur
    cases c with
    | zero => rfl
    | succ n => simp [runPasses, passD]
  simp only [SolveJointsAoS, runI, runD]
  simp only [SolveFinishAoS, List.foldl_cons, List.foldl_nil, SolvePrepareAoS,
    hb1, hb2, if_true, if_pos]
  norm_num [fdiv]

/-- Witness for `degenerate_joint_neutrality` at a concrete two-body scene
whose single joint has zero effective masses. -/
theorem degenerate_joint_neutrality_witness :
    (let j : ContactJoint := { (default : ContactJoint) with body2Index := 1 };
     (0 : ℚ) ≤ j.normalLimiter.accumulatedImpulse ∧
     (SolveJointsAoS (fun _ => (default : RigidBody)) 2 [j] 1 1).2.2 = .fin 2) :=
  ⟨le_refl 0,
   (degenerate_joint_neutrality 0 (fun _ => default) (fun _ => default)
      default default 2 1 1 { (default : ContactJoint) with body2Index := 1 }
      rfl rfl (le_refl 0) (le_refl 0)
      (by with_unfolding_all decide)
      (le_refl 1) (le_refl 1) (by decide) (by decide)).2.2.2.2⟩

open List in
/-- Swap-with-last-and-pop removes exactly the element at position `i`:
the removed element together with the shrunk work list is a permutation of
the original work list. -/
theorem swapPop_perm (wl : List ℕ) (i : ℕ) (h : i < wl.length) :
    List.Perm (wl.getD i 0 :: (wl.set i (wl.getD (wl.length - 1) 0)).dropLast) wl := by
  have hlen : wl.length - 1 < wl.length := by omega
  rw [List.getD_eq_getElem wl 0 h, List.getD_eq_getElem wl 0 hlen]
  rcases Nat.lt_or_ge i (wl.length - 1) with hi | hi
  · have hdne : wl.drop (i + 1) ≠ [] := by
      apply List.ne_nil_of_length_pos
      simp only [List.length_drop]
      omega
    have hgl : (wl.drop (i + 1)).getLast hdne = wl[wl.length - 1] := by
      rw [List.getLast_eq_getElem, List.getElem_drop]
      congr 1
      simp only [List.length_drop]
      omega
    have hdecomp : (wl.drop (i + 1)).dropLast ++ [wl[wl.length - 1]] = wl.drop (i + 1) := by
      rw [← hgl]
      exact List.dropLast_concat_getLast hdne
    calc wl[i] :: (wl.set i wl[wl.length - 1]).dropLast
        = wl[i] :: (wl.take i ++ wl[wl.length - 1] :: (wl.drop (i + 1)).dropLast) := by
          rw [List.set_eq_take_cons_drop _ h, List.dropLast_append_cons,
            List.dropLast_cons_of_ne_nil hdne]
      _ ~ wl.take i ++ wl[i] :: (wl[wl.length - 1] :: (wl.drop (i + 1)).dropLast) :=
          List.perm_middle.symm
      _ ~ wl.take i ++ wl[i] :: ((wl.drop (i + 1)).dropLast ++ [wl[wl.length - 1]]) :=
          List.Perm.append_left _ (List.Perm.cons _ (List.perm_append_singleton _ _).symm)
      _ = wl.take i ++ wl[i] :: wl.drop (i + 1) := by rw [hdecomp]
      _ = wl.take i ++ wl.drop i := by rw [List.getElem_cons_drop]
      _ = wl := List.take_append_drop i wl
  · have hieq : i = wl.length - 1 := by omega
    subst hieq
    calc wl[wl.length - 1] :: (wl.set (wl.length - 1) wl[wl.length - 1]).dropLast
        = wl[wl.length - 1] ::
            (wl.take (wl.length - 1) ++ wl[wl.length - 1] :: wl.drop (wl.length - 1 + 1)).dropLast := by
          rw [List.set_eq_take_cons_drop _ hlen]
      _ = wl[wl.length - 1] :: (wl.take (wl.length - 1) ++ [wl[wl.length - 1]]).dropLast := by
          rw [show wl.length - 1 + 1 = wl.length by omega, List.drop_length]
      _ = wl[wl.length - 1] :: wl.take (wl.length - 1) := by rw [List.dropLast_concat]
      _ ~ wl.take (wl.length - 1) ++ [wl[wl.length - 1]] :=
          (List.perm_append_singleton _ _).symm
      _ = wl.take (wl.length - 1) ++ wl.drop (wl.length - 1) := by
          rw [List.drop_eq_getElem_cons hlen,
            show wl.length - 1 + 1 = wl.length by omega, List.drop_length]
      _ = wl := List.take_append_drop _ wl

open List in
/-- The scan moves entries but never loses or duplicates them: accepted
indices plus the remaining work list form a permutation of the input
accumulator plus work list. -/
theorem gatherJoints_perm (js : List ContactJoint) (target tag : ℕ)
    (tags : ℕ → ℕ) (wl : List ℕ) (i : ℕ) (acc : List ℕ) :
    ((gatherJoints js target tag tags wl i acc).2.2 ++
      (gatherJoints js target tag tags wl i acc).2.1).Perm (acc ++ wl) := by
  induction tags, wl, i, acc using gatherJoints.induct js target tag with
  | case1 tags wl i acc hcond jointIndex joint htag ih =>
    rw [gatherJoints, dif_pos hcond, if_pos htag]
    refine ih.trans ?_
    rw [List.append_assoc]
    exact List.Perm.append_left acc (swapPop_perm wl i hcond.1)
  | case2 tags wl i acc hcond jointIndex joint htag ih =>
    rw [gatherJoints, dif_pos hcond, if_neg htag]
    exact ih
  | case3 tags wl i acc hcond =>
    rw [gatherJoints, dif_neg hcond]

/-- The scan never accepts more than a full group. -/
theorem gatherJoints_acc_le (js : List ContactJoint) (target tag : ℕ)
    (tags : ℕ → ℕ) (wl : List ℕ) (i : ℕ) (acc : List ℕ) (h : acc.length ≤ target) :
    (gatherJoints js target tag tags wl i acc).2.2.length ≤ target := by
  induction tags, wl, i, acc using gatherJoints.induct js target tag with
  | case1 tags wl i acc hcond jointIndex joint htag ih =>
    rw [gatherJoints, dif_pos hcond, if_pos htag]
    exact ih (by simp only [List.length_append, List.length_cons, List.length_nil]; omega)
  | case2 tags wl i acc hcond jointIndex joint htag ih =>
    rw [gatherJoints, dif_pos hcond, if_neg htag]
    exact ih h
  | case3 tags wl i acc hcond =>
    rw [gatherJoints, dif_neg hcond]
    exact h

/-- The pair of body indices the grouping pass reads for one joint. -/
def jointBodies (js : List ContactJoint) (idx : ℕ) : List ℕ :=
  [(js.getD idx default).body1Index, (js.getD idx default).body2Index]

open List in
/-- Scan invariant: bodies of already-accepted joints are stamped with the
round tag, a joint is accepted only while both its body tags are below the
round tag, so the accepted joints of one round have pairwise distinct body
indices; the remaining work list stays in range. -/
theorem gatherJoints_nodup (js : List ContactJoint) (target tag : ℕ)
    (hsep : ∀ j ∈ js, j.body1Index ≠ j.body2Index) :
    ∀ (tags : ℕ → ℕ) (wl : List ℕ) (i : ℕ) (acc : List ℕ),
      (∀ a ∈ wl, a < js.length) →
      ((acc.map (jointBodies js)).flatten).Nodup →
      (∀ a ∈ acc, tags (js.getD a default).body1Index = tag ∧
                  tags (js.getD a default).body2Index = tag) →
      (((gatherJoints js target tag tags wl i acc).2.2.map (jointBodies js)).flatten).Nodup ∧
      (∀ a ∈ (gatherJoints js target tag tags wl i acc).2.1, a < js.length) := by
  intro tags wl i acc
  induction tags, wl, i, acc using gatherJoints.induct js target tag with
  | case1 tags wl i acc hcond jointIndex joint htag ih =>
    intro hwl hacc htags
    have hjmem : wl.getD i 0 ∈ wl := by
      rw [List.getD_eq_getElem wl 0 hcond.1]
      exact List.getElem_mem hcond.1
    have hjlt : wl.getD i 0 < js.length := hwl _ hjmem
    have hjointmem : js.getD (wl.getD i 0) default ∈ js := by
      rw [List.getD_eq_getElem js default hjlt]
      exact List.getElem_mem hjlt
    rw [gatherJoints, dif_pos hcond, if_pos htag]
    apply ih
    · intro a ha
      exact hwl a ((swapPop_perm wl i hcond.1).mem_iff.mp (List.mem_cons_of_mem _ ha))
    · rw [List.map_append, List.flatten_append]
      simp only [List.map_cons, List.map_nil, List.flatten_cons, List.flatten_nil, List.append_nil]
      rw [List.nodup_append]
      refine ⟨hacc, ?_, ?_⟩
      · simp only [jointBodies, List.nodup_cons, List.mem_singleton, List.nodup_nil,
          and_true, List.not_mem_nil, not_false_iff]
        exact hsep _ hjointmem
      · intro x hx hx2
        obtain ⟨l, hl, hxl⟩ := List.mem_flatten.mp hx
        obtain ⟨b, hb, rfl⟩ := List.mem_map.mp hl
        have hstamp := htags b hb
        have hxtag : tags x = tag := by
          simp only [jointBodies, List.mem_cons, List.mem_singleton,
            List.not_mem_nil, or_false] at hxl
          rcases hxl with rfl | rfl
          · exact hstamp.1
          · exact hstamp.2
        simp only [jointBodies, List.mem_cons, List.mem_singleton,
          List.not_mem_nil, or_false] at hx2
        rcases hx2 with rfl | rfl
        · have hx' : tags (js.getD (wl.getD i 0) default).body1Index = tag := hxtag
          have hj1 : tags (js.getD (wl.getD i 0) default).body1Index < tag := htag.1
          omega
        · have hx' : tags (js.getD (wl.getD i 0) default).body2Index = tag := hxtag
          have hj2 : tags (js.getD (wl.getD i 0) default).body2Index < tag := htag.2
          omega
    · intro a ha
      rcases List.mem_append.mp ha with ha | ha
      · obtain ⟨h1, h2⟩ := htags a ha
        constructor
        · dsimp only
          split_ifs <;> first | rfl | exact h1
        · dsimp only
          split_ifs <;> first | rfl | exact h2
      · simp only [List.mem_singleton] at ha
        subst ha
        constructor
        · dsimp only
          split_ifs with h1 h2
          · rfl
          · rfl
          · exact absurd rfl h2
        · dsimp only
          split_ifs with h1 h2
          · rfl
          · rfl
          · exact absurd rfl h1
  | case2 tags wl i acc hcond jointIndex joint htag ih =>
    intro hwl hacc htags
    rw [gatherJoints, dif_pos hcond, if_neg htag]
    exact ih hwl hacc htags
  | case3 tags wl i acc hcond =>
    intro hwl hacc htags
    rw [gatherJoints, dif_neg hcond]
    exact ⟨hacc, hwl⟩

open List in
/-- The round loop only moves joint indices between the accepted prefix and
the work list. -/
theorem groupLoop_perm (js : List ContactJoint) (target : ℕ) :
    ∀ (fuel : ℕ) (tags : ℕ → ℕ) (tag : ℕ) (wl : List ℕ),
      ((groupLoop js target fuel tags tag wl).1 ++
        (groupLoop js target fuel tags tag wl).2).Perm wl := by
  intro fuel
  induction fuel with
  | zero =>
    intro tags tag wl
    simp [groupLoop]
  | succ fuel ih =>
    intro tags tag wl
    rw [groupLoop]
    split_ifs with hwl
    · have hg := gatherJoints_perm js target (tag + 1) tags wl 0 []
      rw [List.nil_append] at hg
      dsimp only
      split_ifs with hsize
      · exact hg
      · rw [List.append_assoc]
        exact (List.Perm.append_left _ (ih _ _ _)).trans hg
    · simp

open List in
/-- Round structure of the accepted prefix: it decomposes into complete
rounds (each of exactly `groupSizeTarget` joints with pairwise distinct body
indices) followed by one partial round shorter than `groupSizeTarget`. -/
theorem groupLoop_rounds (js : List ContactJoint) (target : ℕ)
    (hsep : ∀ j ∈ js, j.body1Index ≠ j.body2Index) (htarget : 0 < target) :
    ∀ (fuel : ℕ) (tags : ℕ → ℕ) (tag : ℕ) (wl : List ℕ),
      (∀ a ∈ wl, a < js.length) →
      ∃ (full : List (List ℕ)) (tailpart : List ℕ),
        (groupLoop js target fuel tags tag wl).1 = full.flatten ++ tailpart ∧
        (∀ r ∈ full, r.length = target ∧ ((r.map (jointBodies js)).flatten).Nodup) ∧
        tailpart.length < target := by
  intro fuel
  induction fuel with
  | zero =>
    intro tags tag wl hwl
    exact ⟨[], [], by simp [groupLoop], by simp, htarget⟩
  | succ fuel ih =>
    intro tags tag wl hwl
    rw [groupLoop]
    split_ifs with hwllen
    · have hnd := gatherJoints_nodup js target (tag + 1) hsep tags wl 0 []
        hwl (by simp) (by simp)
      dsimp only
      split_ifs with hsize
      · exact ⟨[], (gatherJoints js target (tag + 1) tags wl 0 []).2.2, by simp, by simp, hsize⟩
      · push_neg at hsize
        have hle := gatherJoints_acc_le js target (tag + 1) tags wl 0 [] (Nat.zero_le _)
        have hexact : (gatherJoints js target (tag + 1) tags wl 0 []).2.2.length = target :=
          le_antisymm hle hsize
        obtain ⟨full, tailpart, heq, hprops, htail⟩ :=
          ih (gatherJoints js target (tag + 1) tags wl 0 []).1 (tag + 1)
            (gatherJoints js target (tag + 1) tags wl 0 []).2.1 hnd.2
        refine ⟨(gatherJoints js target (tag + 1) tags wl 0 []).2.2 :: full, tailpart,
          ?_, ?_, htail⟩
        · simp only [List.flatten_cons, List.append_assoc, heq]
        · intro r hr
          rcases List.mem_cons.mp hr with rfl | hr
          · exact ⟨hexact, hnd.1⟩
          · exact hprops r hr
    · exact ⟨[], [], by simp, by simp, htarget⟩

/-- With `jointCount` fuel the round loop has already reached its fixed
point for any positive group size: extra fuel changes nothing. -/
theorem groupLoop_fuel_stable (js : List ContactJoint) (target : ℕ) (htarget : 1 ≤ target) :
    ∀ (fuel : ℕ) (wl : List ℕ), wl.length ≤ fuel → ∀ (tags : ℕ → ℕ) (tag extra : ℕ),
      groupLoop js target (fuel + extra) tags tag wl = groupLoop js target fuel tags tag wl := by
  intro fuel
  induction fuel with
  | zero =>
    intro wl hlen tags tag extra
    have hwl : wl = [] := List.eq_nil_of_length_eq_zero (by omega)
    subst hwl
    cases extra with
    | zero => rfl
    | succ e =>
      rw [show 0 + (e + 1) = e + 1 by omega]
      conv_lhs => rw [groupLoop]
      rw [if_neg (by simp only [List.length_nil]; omega)]
      rfl
  | succ fuel ih =>
    intro wl hlen tags tag extra
    rw [show fuel + 1 + extra = (fuel + extra) + 1 by omega, groupLoop, groupLoop]
    split_ifs with hwllen
    · dsimp only
      split_ifs with hsize
      · rfl
      · have hperm := gatherJoints_perm js target (tag + 1) tags wl 0 []
        have hlensum := hperm.length_eq
        simp only [List.length_append, List.nil_append] at hlensum
        push_neg at hsize
        have hlen2 : (gatherJoints js target (tag + 1) tags wl 0 []).2.1.length ≤ fuel := by
          omega
        rw [ih _ hlen2]
    · rfl

/-- C10: `SolvePrepareIndicesSoA` terminates for every `groupSizeTarget ≥ 2`:
each scan of the work list strictly shrinks `wl.length - i` (the model's
well-founded measure of `gatherJoints`), each scan moves every accepted joint
from the work list into the group (the length conservation below), and the
`jointCount` fuel the model gives the outer round loop is already a fixed
point — any extra fuel yields the same result, because every continuing round
removes exactly `groupSizeTarget` work-list entries and a short round breaks
out. -/
theorem grouping_terminates (js : List ContactJoint) (target extra tag : ℕ)
    (tags : ℕ → ℕ) (wl : List ℕ) (i : ℕ) (acc : List ℕ)
    (htarget : 2 ≤ target) :
    groupLoop js target (js.length + extra) (fun _ => 0) 0 (List.range js.length) =
      groupLoop js target js.length (fun _ => 0) 0 (List.range js.length) ∧
    (gatherJoints js target tag tags wl i acc).2.2.length +
      (gatherJoints js target tag tags wl i acc).2.1.length =
        acc.length + wl.length := by
  constructor
  · exact groupLoop_fuel_stable js target (by omega) js.length (List.range js.length)
      (by simp) (fun _ => 0) 0 extra
  · have h := (gatherJoints_perm js target tag tags wl i acc).length_eq
    simp only [List.length_append] at h
    exact h

/-- Witness for `grouping_terminates` at a concrete four-joint list,
`groupSizeTarget = 2`, and five units of extra fuel. -/
theorem grouping_terminates_witness :
    2 ≤ 2 ∧
    groupLoop [default, default, default, default] 2 9 (fun _ => 0) 0 (List.range 4) =
      groupLoop [default, default, default, default] 2 4 (fun _ => 0) 0 (List.range 4) :=
  ⟨by omega,
   (grouping_terminates [default, default, default, default] 2 5 0
      (fun _ => 0) [] 0 [] (by omega)).1⟩

theorem windowInsideConcat (A B : List ℕ) (m K : ℕ) (h : m + K ≤ A.length) :
    ((A ++ B).drop m).take K = (A.drop m).take K := by
  rw [List.drop_append_of_le_length (by omega),
    List.take_append_of_le_length (by simp only [List.length_drop]; omega)]

theorem flatten_length_const (K : ℕ) (rounds : List (List ℕ))
    (hlen : ∀ r ∈ rounds, r.length = K) : rounds.flatten.length = K * rounds.length := by
  induction rounds with
  | nil => simp
  | cons r rs ih =>
    simp only [List.flatten_cons, List.length_append, List.length_cons]
    rw [hlen r (List.mem_cons_self r rs), ih (fun x hx => hlen x (List.mem_cons_of_mem _ hx))]
    ring

theorem flatten_window (K : ℕ) (rounds : List (List ℕ))
    (hlen : ∀ r ∈ rounds, r.length = K) :
    ∀ g, g < rounds.length → (rounds.flatten.drop (K * g)).take K = rounds.getD g [] := by
  induction rounds with
  | nil =>
    intro g hg
    simp at hg
  | cons r rs ih =>
    intro g hg
    cases g with
    | zero =>
      simp only [Nat.mul_zero, List.drop_zero, List.flatten_cons, List.getD_cons_zero]
      rw [List.take_append_of_le_length (le_of_eq (hlen r (List.mem_cons_self r rs)).symm),
        List.take_of_length_le (le_of_eq (hlen r (List.mem_cons_self r rs)))]
    | succ g' =>
      simp only [List.flatten_cons, List.getD_cons_succ]
      rw [show K * (g' + 1) = r.length + K * g' by
            rw [hlen r (List.mem_cons_self r rs)]; ring,
        List.drop_append]
      exact ih (fun x hx => hlen x (List.mem_cons_of_mem _ hx)) g'
        (by simpa using hg)

open List in
/-- C3: for `groupSizeTarget ∈ {4, 8, 16}` and a joint list in which no
joint has `body1Index = body2Index`, every `K`-aligned window of `K` joint
indices taken inside the returned `groupOffset` selects joints whose `2K`
body indices are pairwise distinct. -/
theorem grouping_disjointness (js : List ContactJoint) (bodiesCount K g : ℕ)
    (hK : K = 4 ∨ K = 8 ∨ K = 16)
    (hsep : js.all (fun j => decide (j.body1Index ≠ j.body2Index)) = true)
    (hg : K * g + K ≤ (SolvePrepareIndicesSoA js bodiesCount K).2) :
    (((((SolvePrepareIndicesSoA js bodiesCount K).1.drop (K * g)).take K).map
      (jointBodies js)).flatten).Nodup := by
  have hK2 : 2 ≤ K := by rcases hK with rfl | rfl | rfl <;> omega
  have hK1 : K ≠ 1 := by omega
  have hsep' : ∀ j ∈ js, j.body1Index ≠ j.body2Index := by
    intro j hj
    simpa using List.all_eq_true.mp hsep j hj
  unfold SolvePrepareIndicesSoA at hg ⊢
  dsimp only at hg ⊢
  rw [if_neg hK1] at hg ⊢
  dsimp only at hg ⊢
  obtain ⟨full, tailpart, heq, hprops, htail⟩ :=
    groupLoop_rounds js K hsep' (by omega) js.length (fun _ => 0) 0 (List.range js.length)
      (by intro a ha; simpa using List.mem_range.mp ha)
  have hfl : full.flatten.length = K * full.length :=
    flatten_length_const K full (fun r hr => (hprops r hr).1)
  have haccLen :
      (groupLoop js K js.length (fun _ => 0) 0 (List.range js.length)).1.length
        = K * full.length + tailpart.length := by
    rw [heq]
    simp [hfl]
  have hdiv :
      (groupLoop js K js.length (fun _ => 0) 0 (List.range js.length)).1.length / K
        = full.length := by
    rw [haccLen, Nat.add_comm, Nat.add_mul_div_left _ _ (show 0 < K by omega),
      Nat.div_eq_of_lt htail]
    omega
  rw [hdiv] at hg
  have hgm : g < full.length := by
    have hstep : K * (g + 1) ≤ K * full.length := by
      calc K * (g + 1) = K * g + K := by ring
        _ ≤ full.length * K := hg
        _ = K * full.length := by ring
    have := Nat.le_of_mul_le_mul_left hstep (show 0 < K by omega)
    omega
  rw [windowInsideConcat _ _ _ _ (by rw [haccLen]; nlinarith), heq,
    windowInsideConcat _ _ _ _ (by rw [hfl]; nlinarith),
    flatten_window K full (fun r hr => (hprops r hr).1) g hgm]
  have hmem : full.getD g [] ∈ full := by
    rw [List.getD_eq_getElem full [] hgm]
    exact List.getElem_mem hgm
  exact (hprops _ hmem).2

/-- Witness for `grouping_disjointness`: four joints over eight distinct
bodies, `K = 4`, window `g = 0`. -/
theorem grouping_disjointness_witness :
    ((4 : ℕ) = 4 ∨ (4 : ℕ) = 8 ∨ (4 : ℕ) = 16) ∧
    ((([⟨0, 1, default, default⟩, ⟨2, 3, default, default⟩,
        ⟨4, 5, default, default⟩, ⟨6, 7, default, default⟩] : List ContactJoint).all
      (fun j => decide (j.body1Index ≠ j.body2Index)) = true) ∧
    ((((SolvePrepareIndicesSoA
        [⟨0, 1, default, default⟩, ⟨2, 3, default, default⟩,
         ⟨4, 5, default, default⟩, ⟨6, 7, default, default⟩] 8 4).1.drop (4 * 0)).take 4).map
      (jointBodies
        [⟨0, 1, default, default⟩, ⟨2, 3, default, default⟩,
         ⟨4, 5, default, default⟩, ⟨6, 7, default, default⟩])).flatten.Nodup) := by
  refine ⟨Or.inl rfl, by decide, ?_⟩
  apply grouping_disjointness
    [⟨0, 1, default, default⟩, ⟨2, 3, default, default⟩,
     ⟨4, 5, default, default⟩, ⟨6, 7, default, default⟩] 8 4 0 (Or.inl rfl) (by decide)
  have hidx : SolvePrepareIndicesSoA
      [⟨0, 1, default, default⟩, ⟨2, 3, default, default⟩,
       ⟨4, 5, default, default⟩, ⟨6, 7, default, default⟩] 8 4 = ([0, 3, 2, 1], 4) := by
    have hr : List.range 4 = [0, 1, 2, 3] := rfl
    simp [SolvePrepareIndicesSoA, groupLoop, gatherJoints, hr]
  rw [hidx]

open List in
/-- C4: for every `bodiesCount`, every `groupSizeTarget ∈ {1, 4, 8, 16}`,
and every joint list with body indices below `bodiesCount`, the
`joint_index` array built by `SolvePrepareIndicesSoA` is a permutation of
`[0, jointCount)`; with `groupSizeTarget = 1` it is the identity permutation
and the function returns `jointCount`. -/
theorem joint_index_permutation (js : List ContactJoint) (bodiesCount K : ℕ)
    (_hK : K = 1 ∨ K = 4 ∨ K = 8 ∨ K = 16)
    (_hvalid : js.all (fun j => decide (j.body1Index < bodiesCount) &&
      decide (j.body2Index < bodiesCount)) = true) :
    ((SolvePrepareIndicesSoA js bodiesCount K).1).Perm (List.range js.length) ∧
    (K = 1 → (SolvePrepareIndicesSoA js bodiesCount K).1 = List.range js.length ∧
      (SolvePrepareIndicesSoA js bodiesCount K).2 = js.length) := by
  constructor
  · unfold SolvePrepareIndicesSoA
    dsimp only
    split_ifs with h1
    · exact List.Perm.refl _
    · exact groupLoop_perm js K js.length (fun _ => 0) 0 (List.range js.length)
  · intro hk1
    subst hk1
    unfold SolvePrepareIndicesSoA
    dsimp only
    rw [if_pos rfl]
    exact ⟨rfl, rfl⟩

/-- Witness for `joint_index_permutation` at `K = 4` on a two-joint list
sharing one body. -/
theorem joint_index_permutation_witness :
    ((4 : ℕ) = 1 ∨ (4 : ℕ) = 4 ∨ (4 : ℕ) = 8 ∨ (4 : ℕ) = 16) ∧
    ((SolvePrepareIndicesSoA
      [⟨0, 1, default, default⟩, ⟨1, 2, default, default⟩] 3 4).1).Perm
        (List.range ([⟨0, 1, default, default⟩,
          ⟨1, 2, default, default⟩] : List ContactJoint).length) :=
  ⟨Or.inr (Or.inl rfl),
   (joint_index_permutation [⟨0, 1, default, default⟩, ⟨1, 2, default, default⟩] 3 4
     (Or.inr (Or.inl rfl)) (by decide)).1⟩

/-- The impulse-channel view of a body, as copied by `SolvePrepareSoA`. -/
def impProj (b : RigidBody) : SolveBody :=
  ⟨b.velocityX, b.velocityY, b.angularVelocity, b.lastIteration⟩

/-- The displacement-channel view of a body, as copied by `SolvePrepareSoA`. -/
def dispProj (b : RigidBody) : SolveBody :=
  ⟨b.displacingVelocityX, b.displacingVelocityY, b.displacingAngularVelocity,
   b.lastDisplacementIteration⟩

/-- The externally observable velocity state of the first `bodiesCount`
bodies: both velocity channels, the quantities compared across backends. -/
def bodyVelocities (bodies : ℕ → RigidBody) (bodiesCount : ℕ) :
    List (ℚ × ℚ × ℚ × ℚ × ℚ × ℚ) :=
  (List.range bodiesCount).map fun n =>
    ((bodies n).velocityX, (bodies n).velocityY, (bodies n).angularVelocity,
     (bodies n).displacingVelocityX, (bodies n).displacingVelocityY,
     (bodies n).displacingAngularVelocity)

/-- The three persisted accumulators of every joint. -/
def jointAccumulators (js : List ContactJoint) : List (ℚ × ℚ × ℚ) :=
  js.map fun j =>
    (j.normalLimiter.accumulatedImpulse, j.normalLimiter.accumulatedDisplacingImpulse,
     j.frictionLimiter.accumulatedImpulse)

/-- The AoS one-sided clamp `if (delta + acc < 0) delta = -acc` equals the
SoA branchless `max(delta, -acc)` in exact arithmetic. -/
theorem clamp_if_eq_max (raw acc : ℚ) :
    (if raw + acc < 0 then -acc else raw) = max raw (-acc) := by
  split_ifs with h
  · exact (max_eq_right (by linarith)).symm
  · exact (max_eq_left (by linarith)).symm

/-- The AoS signed friction cap (`dir = force > 0 ? 1 : -1`) equals the SoA
branchless `flipsign` form whenever the cap is non-negative (which the
kernels guarantee, since the just-updated normal accumulator is
non-negative). -/
theorem friction_branch_eq_select (r a d0 : ℚ) (hr : 0 ≤ r) :
    (if |a + d0| > r * kFrictionCoefficient then
       (if a + d0 > 0 then (1 : ℚ) else -1) * r * kFrictionCoefficient - a
     else d0)
    = (if |a + d0| > r * kFrictionCoefficient then
         flipsign (r * kFrictionCoefficient) (a + d0) - a
       else d0) := by
  have hc : 0 ≤ r * kFrictionCoefficient := by
    have hk : (0 : ℚ) ≤ kFrictionCoefficient := by norm_num [kFrictionCoefficient]
    positivity
  unfold flipsign
  rcases lt_trichotomy (a + d0) 0 with hf | hf | hf
  · rw [if_neg (show ¬(a + d0 > 0) by linarith), if_pos hf]
    split_ifs with h1
    · ring
    · rfl
  · rw [hf, abs_zero]
    rw [if_neg (show ¬((0 : ℚ) > r * kFrictionCoefficient) by linarith)]
    rw [if_neg (show ¬((0 : ℚ) > r * kFrictionCoefficient) by linarith)]
  · rw [if_pos hf, if_neg (show ¬(a + d0 < 0) by linarith)]
    split_ifs with h1
    · ring
    · rfl

theorem updBody_same (bs : ℕ → RigidBody) (idx : ℕ) (b : RigidBody) :
    updBody bs idx b idx = b := by
  simp [updBody]

theorem updBody_other (bs : ℕ → RigidBody) (idx n : ℕ) (b : RigidBody) (h : n ≠ idx) :
    updBody bs idx b n = bs n := by
  simp [updBody, h]

theorem updSolveBody_same (bs : ℕ → SolveBody) (idx : ℕ) (b : SolveBody) :
    updSolveBody bs idx b idx = b := by
  simp [updSolveBody]

theorem updSolveBody_other (bs : ℕ → SolveBody) (idx n : ℕ) (b : SolveBody) (h : n ≠ idx) :
    updSolveBody bs idx b n = bs n := by
  simp [updSolveBody, h]

/-- Specialisation of `friction_branch_eq_select` to the reaction force the
kernels actually use (the just-clamped normal accumulator, which is never
negative), so it can be applied as an unconditional rewrite. -/
theorem friction_branch_eq_select' (acc raw a d0 : ℚ) :
    (if |a + d0| > (acc + max raw (-acc)) * kFrictionCoefficient then
       (if a + d0 > 0 then (1 : ℚ) else -1) * (acc + max raw (-acc)) * kFrictionCoefficient - a
     else d0)
    = (if |a + d0| > (acc + max raw (-acc)) * kFrictionCoefficient then
         flipsign ((acc + max raw (-acc)) * kFrictionCoefficient) (a + d0) - a
       else d0) :=
  friction_branch_eq_select _ _ _ (clampedNormalMax_nonneg _ _)

/-- Write the impulse-channel view back into a body record: the composite
effect of the AoS kernel's writes to one body in one impulse step. -/
def mergeImp (b : RigidBody) (s : SolveBody) : RigidBody :=
  { b with
    velocityX := s.velocityX
    velocityY := s.velocityY
    angularVelocity := s.angularVelocity
    lastIteration := s.lastIteration }

/-- Write the displacement-channel view back into a body record. -/
def mergeDisp (b : RigidBody) (s : SolveBody) : RigidBody :=
  { b with
    displacingVelocityX := s.velocityX
    displacingVelocityY := s.velocityY
    displacingAngularVelocity := s.angularVelocity
    lastDisplacementIteration := s.lastIteration }

/-- Bridge: on a joint with two distinct bodies, the AoS impulse compute
path performs exactly the SoA impulse lane computation on the two bodies'
impulse-channel views, merged back into the body store. -/
theorem impulseAoS_bridge (i : ℤ) (bodiesA : ℕ → RigidBody) (j : ContactJoint)
    (hne : j.body1Index ≠ j.body2Index) :
    solveJointImpulseAoSCompute i bodiesA j =
      (updBody (updBody bodiesA j.body1Index
          (mergeImp (bodiesA j.body1Index)
            (laneImpulseSoA i (impProj (bodiesA j.body1Index))
              (impProj (bodiesA j.body2Index)) j).1))
        j.body2Index
          (mergeImp (bodiesA j.body2Index)
            (laneImpulseSoA i (impProj (bodiesA j.body1Index))
              (impProj (bodiesA j.body2Index)) j).2.1),
       (laneImpulseSoA i (impProj (bodiesA j.body1Index))
         (impProj (bodiesA j.body2Index)) j).2.2.1,
       (laneImpulseSoA i (impProj (bodiesA j.body1Index))
         (impProj (bodiesA j.body2Index)) j).2.2.2) := by
  have hne2 : j.body2Index ≠ j.body1Index := fun h => hne h.symm
  simp only [solveJointImpulseAoSCompute, laneImpulseSoA, impProj, mergeImp,
    updBody_same, updBody_other, hne, hne2, ne_eq, not_false_iff,
    decide_eq_true_eq]
  rw [clamp_if_eq_max, friction_branch_eq_select']
  split_ifs with hf h1 h2
  · simp only [Prod.mk.injEq]
    refine ⟨?_, ?_, ?_⟩
    · funext n
      by_cases hb2 : n = j.body2Index
      · subst hb2
        simp only [updBody_same, updBody_other, hne2]
      · by_cases hb1 : n = j.body1Index
        · subst hb1
          simp only [updBody_same, updBody_other, ne_eq, not_false_iff, hne, hne2, hb2]
        · simp only [updBody_other, ne_eq, not_false_iff, hb1, hb2]
    · trivial
    · exact (decide_eq_true h1).symm
  · simp only [Prod.mk.injEq]
    refine ⟨?_, ?_, ?_⟩
    · funext n
      by_cases hb2 : n = j.body2Index
      · subst hb2
        simp only [updBody_same, updBody_other, hne2]
      · by_cases hb1 : n = j.body1Index
        · subst hb1
          simp only [updBody_same, updBody_other, ne_eq, not_false_iff, hne, hne2, hb2]
        · simp only [updBody_other, ne_eq, not_false_iff, hb1, hb2]
    · trivial
    · exact (decide_eq_false h1).symm
  · simp only [Prod.mk.injEq]
    refine ⟨?_, ?_, ?_⟩
    · funext n
      by_cases hb2 : n = j.body2Index
      · subst hb2
        simp only [updBody_same, updBody_other, hne2]
      · by_cases hb1 : n = j.body1Index
        · subst hb1
          simp only [updBody_same, updBody_other, ne_eq, not_false_iff, hne, hne2, hb2]
        · simp only [updBody_other, ne_eq, not_false_iff, hb1, hb2]
    · trivial
    · exact (decide_eq_true h2).symm
  · simp only [Prod.mk.injEq]
    refine ⟨?_, ?_, ?_⟩
    · funext n
      by_cases hb2 : n = j.body2Index
      · subst hb2
        simp only [updBody_same, updBody_other, hne2]
      · by_cases hb1 : n = j.body1Index
        · subst hb1
          simp only [updBody_same, updBody_other, ne_eq, not_false_iff, hne, hne2, hb2]
        · simp only [updBody_other, ne_eq, not_false_iff, hb1, hb2]
    · trivial
    · exact (decide_eq_false h2).symm

/-- Bridge: on a joint with two distinct bodies, the AoS displacement compute
path performs exactly the SoA displacement lane computation on the two
bodies' displacement-channel views, merged back into the body store. -/
theorem displacementAoS_bridge (i : ℤ) (bodiesA : ℕ → RigidBody) (j : ContactJoint)
    (hne : j.body1Index ≠ j.body2Index) :
    solveJointDisplacementAoSCompute i bodiesA j =
      (updBody (updBody bodiesA j.body1Index
          (mergeDisp (bodiesA j.body1Index)
            (laneDisplacementSoA i (dispProj (bodiesA j.body1Index))
              (dispProj (bodiesA j.body2Index)) j).1))
        j.body2Index
          (mergeDisp (bodiesA j.body2Index)
            (laneDisplacementSoA i (dispProj (bodiesA j.body1Index))
              (dispProj (bodiesA j.body2Index)) j).2.1),
       (laneDisplacementSoA i (dispProj (bodiesA j.body1Index))
         (dispProj (bodiesA j.body2Index)) j).2.2.1,
       (laneDisplacementSoA i (dispProj (bodiesA j.body1Index))
         (dispProj (bodiesA j.body2Index)) j).2.2.2) := by
  have hne2 : j.body2Index ≠ j.body1Index := fun h => hne h.symm
  simp only [solveJointDisplacementAoSCompute, laneDisplacementSoA, dispProj, mergeDisp,
    updBody_same, updBody_other, hne, hne2, ne_eq, not_false_iff,
    decide_eq_true_eq]
  rw [clamp_if_eq_max]
  split_ifs with h1
  · simp only [Prod.mk.injEq]
    refine ⟨?_, ?_, ?_⟩
    · funext n
      by_cases hb2 : n = j.body2Index
      · subst hb2
        simp only [updBody_same, updBody_other, hne2]
      · by_cases hb1 : n = j.body1Index
        · subst hb1
          simp only [updBody_same, updBody_other, ne_eq, not_false_iff, hne, hne2, hb2]
        · simp only [updBody_other, ne_eq, not_false_iff, hb1, hb2]
    · trivial
    · exact (decide_eq_true h1).symm
  · simp only [Prod.mk.injEq]
    refine ⟨?_, ?_, ?_⟩
    · trivial
    · trivial
    · exact (decide_eq_false h1).symm

theorem impProj_mergeImp (b : RigidBody) (s : SolveBody) : impProj (mergeImp b s) = s := rfl

theorem dispProj_mergeImp (b : RigidBody) (s : SolveBody) :
    dispProj (mergeImp b s) = dispProj b := rfl

theorem dispProj_mergeDisp (b : RigidBody) (s : SolveBody) : dispProj (mergeDisp b s) = s := rfl

theorem impProj_mergeDisp (b : RigidBody) (s : SolveBody) :
    impProj (mergeDisp b s) = impProj b := rfl

theorem batchImp1 (i : ℤ) (bS : ℕ → SolveBody) (j : ContactJoint) :
    solveBatchImpulsesSoACompute i bS [j] =
      (updSolveBody (updSolveBody bS j.body1Index
          (laneImpulseSoA i (bS j.body1Index) (bS j.body2Index) j).1)
        j.body2Index (laneImpulseSoA i (bS j.body1Index) (bS j.body2Index) j).2.1,
       [(laneImpulseSoA i (bS j.body1Index) (bS j.body2Index) j).2.2.1],
       (laneImpulseSoA i (bS j.body1Index) (bS j.body2Index) j).2.2.2) := by
  simp [solveBatchImpulsesSoACompute]

theorem batchDisp1 (i : ℤ) (bS : ℕ → SolveBody) (j : ContactJoint) :
    solveBatchDisplacementSoACompute i bS [j] =
      (updSolveBody (updSolveBody bS j.body1Index
          (laneDisplacementSoA i (bS j.body1Index) (bS j.body2Index) j).1)
        j.body2Index (laneDisplacementSoA i (bS j.body1Index) (bS j.body2Index) j).2.1,
       [(laneDisplacementSoA i (bS j.body1Index) (bS j.body2Index) j).2.2.1],
       (laneDisplacementSoA i (bS j.body1Index) (bS j.body2Index) j).2.2.2) := by
  simp [solveBatchDisplacementSoACompute]

theorem batchSkipImp1 (i : ℤ) (bS : ℕ → SolveBody) (j : ContactJoint) :
    batchSkipImpulsesSoA i bS [j] =
      decide ((bS j.body1Index).lastIteration < i - 1 ∧
        (bS j.body2Index).lastIteration < i - 1) := by
  simp only [batchSkipImpulsesSoA, List.all_cons, List.all_nil, Bool.and_true]
  rw [decide_eq_decide]
  omega

theorem batchSkipDisp1 (i : ℤ) (bS : ℕ → SolveBody) (j : ContactJoint) :
    batchSkipDisplacementSoA i bS [j] =
      decide ((bS j.body1Index).lastIteration < i - 1 ∧
        (bS j.body2Index).lastIteration < i - 1) := by
  simp only [batchSkipDisplacementSoA, List.all_cons, List.all_nil, Bool.and_true]
  rw [decide_eq_decide]
  omega

theorem SoAImp1_cons (i : ℤ) (bS : ℕ → SolveBody) (j : ContactJoint)
    (rest : List ContactJoint) :
    SolveJointsImpulsesSoA 1 i bS (j :: rest) =
      ((SolveJointsImpulsesSoA 1 i (solveBatchImpulsesSoA i bS [j]).1 rest).1,
       (solveBatchImpulsesSoA i bS [j]).2.1 ++
         (SolveJointsImpulsesSoA 1 i (solveBatchImpulsesSoA i bS [j]).1 rest).2.1,
       (solveBatchImpulsesSoA i bS [j]).2.2 ||
         (SolveJointsImpulsesSoA 1 i (solveBatchImpulsesSoA i bS [j]).1 rest).2.2) := by
  conv_lhs => rw [SolveJointsImpulsesSoA]
  simp only [List.take_succ_cons, List.take_zero, List.drop_succ_cons, List.drop_zero,
    dif_neg one_ne_zero]

theorem SoADisp1_cons (i : ℤ) (bS : ℕ → SolveBody) (j : ContactJoint)
    (rest : List ContactJoint) :
    SolveJointsDisplacementSoA 1 i bS (j :: rest) =
      ((SolveJointsDisplacementSoA 1 i (solveBatchDisplacementSoA i bS [j]).1 rest).1,
       (solveBatchDisplacementSoA i bS [j]).2.1 ++
         (SolveJointsDisplacementSoA 1 i (solveBatchDisplacementSoA i bS [j]).1 rest).2.1,
       (solveBatchDisplacementSoA i bS [j]).2.2 ||
         (SolveJointsDisplacementSoA 1 i (solveBatchDisplacementSoA i bS [j]).1 rest).2.2) := by
  conv_lhs => rw [SolveJointsDisplacementSoA]
  simp only [List.take_succ_cons, List.take_zero, List.drop_succ_cons, List.drop_zero,
    dif_neg one_ne_zero]

theorem SoAImp1_nil (i : ℤ) (bS : ℕ → SolveBody) :
    SolveJointsImpulsesSoA 1 i bS [] = (bS, [], false) := by
  simp [SolveJointsImpulsesSoA]

theorem SoADisp1_nil (i : ℤ) (bS : ℕ → SolveBody) :
    SolveJointsDisplacementSoA 1 i bS [] = (bS, [], false) := by
  simp [SolveJointsDisplacementSoA]

theorem wbj_self (j : ContactJoint) : writeBackJoint j j = j := rfl

theorem wbj_indices (o c : ContactJoint) (h : writeBackJoint c o = c) :
    c.body1Index = o.body1Index ∧ c.body2Index = o.body2Index := by
  constructor
  · have := congrArg ContactJoint.body1Index h
    simpa [writeBackJoint] using this.symm
  · have := congrArg ContactJoint.body2Index h
    simpa [writeBackJoint] using this.symm

theorem writeBack_kernel_imp (o c : ContactJoint) (x y : ℚ)
    (h : writeBackJoint c o = c) :
    writeBackJoint
      { c with
        normalLimiter := { c.normalLimiter with accumulatedImpulse := x }
        frictionLimiter := { c.frictionLimiter with accumulatedImpulse := y } } o
    = { c with
        normalLimiter := { c.normalLimiter with accumulatedImpulse := x }
        frictionLimiter := { c.frictionLimiter with accumulatedImpulse := y } } := by
  rw [← h]
  simp [writeBackJoint]

theorem writeBack_kernel_disp (o c : ContactJoint) (z : ℚ)
    (h : writeBackJoint c o = c) :
    writeBackJoint
      { c with
        normalLimiter := { c.normalLimiter with accumulatedDisplacingImpulse := z } } o
    = { c with
        normalLimiter := { c.normalLimiter with accumulatedDisplacingImpulse := z } } := by
  rw [← h]
  simp [writeBackJoint]

theorem laneImpulseSoA_joint_shape (i : ℤ) (b1 b2 : SolveBody) (j : ContactJoint) :
    ∃ x y, (laneImpulseSoA i b1 b2 j).2.2.1 =
      { j with
        normalLimiter := { j.normalLimiter with accumulatedImpulse := x }
        frictionLimiter := { j.frictionLimiter with accumulatedImpulse := y } } :=
  ⟨_, _, rfl⟩

theorem laneDisplacementSoA_joint_shape (i : ℤ) (b1 b2 : SolveBody) (j : ContactJoint) :
    ∃ z, (laneDisplacementSoA i b1 b2 j).2.2.1 =
      { j with
        normalLimiter := { j.normalLimiter with accumulatedDisplacingImpulse := z } } :=
  ⟨_, rfl⟩

theorem forall₂_mem_right {α β : Type} {R : α → β → Prop} {l1 : List α} {l2 : List β}
    (h : List.Forall₂ R l1 l2) : ∀ b ∈ l2, ∃ a ∈ l1, R a b := by
  induction h with
  | nil => intro b hb; simp at hb
  | cons h1 h2 ih =>
    intro b hb
    rcases List.mem_cons.mp hb with rfl | hb2
    · exact ⟨_, List.mem_cons_self _ _, h1⟩
    · obtain ⟨a, ha, hR⟩ := ih b hb2
      exact ⟨a, List.mem_cons_of_mem _ ha, hR⟩

theorem set_append_len (A os : List ContactJoint) (o c : ContactJoint) :
    (A ++ o :: os).set A.length c = A ++ c :: os := by
  induction A with
  | nil => rfl
  | cons a as ih => simp [List.set_cons_succ, ih]

theorem getD_append_len (A os : List ContactJoint) (o : ContactJoint) :
    (A ++ o :: os).getD A.length default = o := by
  induction A with
  | nil => rfl
  | cons a as ih => simpa using ih

theorem wb_fold (js packed : List ContactJoint)
    (h : List.Forall₂ (fun o c => writeBackJoint c o = c) js packed) :
    ∀ A : List ContactJoint,
    ((List.range' A.length packed.length).zip packed).foldl
      (fun cur p => cur.set p.1 (writeBackJoint p.2 (cur.getD p.1 default))) (A ++ js)
      = A ++ packed := by
  induction h with
  | nil => intro A; simp
  | @cons o c os cs h1 h2 ih =>
    intro A
    rw [List.length_cons, List.range'_succ, List.zip_cons_cons, List.foldl_cons,
      getD_append_len, set_append_len, h1]
    have hlen : A.length + 1 = (A ++ [c]).length := by simp
    calc ((List.range' (A.length + 1) cs.length).zip cs).foldl
          (fun cur p => cur.set p.1 (writeBackJoint p.2 (cur.getD p.1 default))) (A ++ c :: os)
        = ((List.range' (A ++ [c]).length cs.length).zip cs).foldl
          (fun cur p => cur.set p.1 (writeBackJoint p.2 (cur.getD p.1 default)))
          ((A ++ [c]) ++ os) := by rw [← hlen, List.append_assoc, List.singleton_append]
      _ = (A ++ [c]) ++ cs := ih (A ++ [c])
      _ = A ++ c :: cs := by rw [List.append_assoc, List.singleton_append]

theorem writeBackAccumulators_id (js packed : List ContactJoint)
    (h : List.Forall₂ (fun o c => writeBackJoint c o = c) js packed) :
    writeBackAccumulators js (List.range js.length) packed = packed := by
  have hlen : js.length = packed.length := h.length_eq
  have hfold := wb_fold js packed h []
  simpa [writeBackAccumulators, List.range_eq_range', hlen] using hfold

theorem packJoints_range (js : List ContactJoint) :
    packJoints js (List.range js.length) = js := by
  apply List.ext_getElem
  · simp [packJoints]
  · intro n h1 h2
    simp only [packJoints, List.getElem_map, List.getElem_range]
    rw [List.getD_eq_getElem js default h2]

theorem prepareIndices_one (js : List ContactJoint) (bodiesCount : ℕ) :
    SolvePrepareIndicesSoA js bodiesCount 1 = (List.range js.length, js.length) := by
  simp [SolvePrepareIndicesSoA]

theorem stepImpulse_bridge (bc : ℕ) (i : ℤ) (bA : ℕ → RigidBody) (bS : ℕ → SolveBody)
    (j : ContactJoint) (hne : j.body1Index ≠ j.body2Index)
    (hv1 : j.body1Index < bc) (hv2 : j.body2Index < bc)
    (hrel : ∀ n, n < bc → impProj (bA n) = bS n) :
    (∀ n, n < bc → impProj ((solveJointImpulseAoS i bA j).1 n) =
      (solveBatchImpulsesSoA i bS [j]).1 n) ∧
    (solveBatchImpulsesSoA i bS [j]).2.1 = [(solveJointImpulseAoS i bA j).2.1] ∧
    (solveBatchImpulsesSoA i bS [j]).2.2 = (solveJointImpulseAoS i bA j).2.2 ∧
    (∀ n, dispProj ((solveJointImpulseAoS i bA j).1 n) = dispProj (bA n)) ∧
    (∀ o, writeBackJoint j o = j →
      writeBackJoint (solveJointImpulseAoS i bA j).2.1 o = (solveJointImpulseAoS i bA j).2.1) := by
  have e1 : impProj (bA j.body1Index) = bS j.body1Index := hrel _ hv1
  have e2 : impProj (bA j.body2Index) = bS j.body2Index := hrel _ hv2
  have hl1 : (bS j.body1Index).lastIteration = (bA j.body1Index).lastIteration := by
    rw [← e1]; rfl
  have hl2 : (bS j.body2Index).lastIteration = (bA j.body2Index).lastIteration := by
    rw [← e2]; rfl
  by_cases hsk : (bA j.body1Index).lastIteration < i - 1 ∧
      (bA j.body2Index).lastIteration < i - 1
  · have hskS : batchSkipImpulsesSoA i bS [j] = true := by
      rw [batchSkipImp1, hl1, hl2]
      exact decide_eq_true hsk
    have hA : solveJointImpulseAoS i bA j = (bA, j, false) := by
      rw [solveJointImpulseAoS, if_pos hsk]
    have hS : solveBatchImpulsesSoA i bS [j] = (bS, [j], false) := by
      rw [solveBatchImpulsesSoA, hskS]
      simp
    rw [hA, hS]
    exact ⟨fun n hn => hrel n hn, rfl, rfl, fun n => rfl, fun o ho => ho⟩
  · have hskS : batchSkipImpulsesSoA i bS [j] = false := by
      rw [batchSkipImp1, hl1, hl2]
      exact decide_eq_false hsk
    have hA : solveJointImpulseAoS i bA j =
        (updBody (updBody bA j.body1Index
            (mergeImp (bA j.body1Index)
              (laneImpulseSoA i (impProj (bA j.body1Index))
                (impProj (bA j.body2Index)) j).1))
          j.body2Index
            (mergeImp (bA j.body2Index)
              (laneImpulseSoA i (impProj (bA j.body1Index))
                (impProj (bA j.body2Index)) j).2.1),
         (laneImpulseSoA i (impProj (bA j.body1Index))
           (impProj (bA j.body2Index)) j).2.2.1,
         (laneImpulseSoA i (impProj (bA j.body1Index))
           (impProj (bA j.body2Index)) j).2.2.2) := by
      rw [solveJointImpulseAoS, if_neg hsk, impulseAoS_bridge i bA j hne]
    have hS : solveBatchImpulsesSoA i bS [j] =
        (updSolveBody (updSolveBody bS j.body1Index
            (laneImpulseSoA i (impProj (bA j.body1Index))
              (impProj (bA j.body2Index)) j).1)
          j.body2Index
            (laneImpulseSoA i (impProj (bA j.body1Index))
              (impProj (bA j.body2Index)) j).2.1,
         [(laneImpulseSoA i (impProj (bA j.body1Index))
            (impProj (bA j.body2Index)) j).2.2.1],
         (laneImpulseSoA i (impProj (bA j.body1Index))
           (impProj (bA j.body2Index)) j).2.2.2) := by
      rw [solveBatchImpulsesSoA, hskS]
      simp only [Bool.false_eq_true, if_false]
      rw [batchImp1, ← e1, ← e2]
    rw [hA, hS]
    dsimp only
    refine ⟨?_, rfl, rfl, ?_, ?_⟩
    · intro n hn
      by_cases hx2 : n = j.body2Index
      · subst hx2
        rw [updBody_same, updSolveBody_same, impProj_mergeImp]
      · by_cases hx1 : n = j.body1Index
        · subst hx1
          rw [updBody_other _ _ _ _ hne, updSolveBody_other _ _ _ _ hne,
            updBody_same, updSolveBody_same, impProj_mergeImp]
        · rw [updBody_other _ _ _ _ hx2, updSolveBody_other _ _ _ _ hx2,
            updBody_other _ _ _ _ hx1, updSolveBody_other _ _ _ _ hx1]
          exact hrel n hn
    · intro n
      by_cases hx2 : n = j.body2Index
      · subst hx2
        rw [updBody_same, dispProj_mergeImp]
      · by_cases hx1 : n = j.body1Index
        · subst hx1
          rw [updBody_other _ _ _ _ hne, updBody_same, dispProj_mergeImp]
        · rw [updBody_other _ _ _ _ hx2, updBody_other _ _ _ _ hx1]
    · intro o ho
      obtain ⟨x, y, hxy⟩ := laneImpulseSoA_joint_shape i
        (impProj (bA j.body1Index)) (impProj (bA j.body2Index)) j
      rw [hxy]
      exact writeBack_kernel_imp o j x y ho

theorem stepDisplacement_bridge (bc : ℕ) (i : ℤ) (bA : ℕ → RigidBody) (bS : ℕ → SolveBody)
    (j : ContactJoint) (hne : j.body1Index ≠ j.body2Index)
    (hv1 : j.body1Index < bc) (hv2 : j.body2Index < bc)
    (hrel : ∀ n, n < bc → dispProj (bA n) = bS n) :
    (∀ n, n < bc → dispProj ((solveJointDisplacementAoS i bA j).1 n) =
      (solveBatchDisplacementSoA i bS [j]).1 n) ∧
    (solveBatchDisplacementSoA i bS [j]).2.1 = [(solveJointDisplacementAoS i bA j).2.1] ∧
    (solveBatchDisplacementSoA i bS [j]).2.2 = (solveJointDisplacementAoS i bA j).2.2 ∧
    (∀ n, impProj ((solveJointDisplacementAoS i bA j).1 n) = impProj (bA n)) ∧
    (∀ o, writeBackJoint j o = j →
      writeBackJoint (solveJointDisplacementAoS i bA j).2.1 o =
        (solveJointDisplacementAoS i bA j).2.1) := by
  have e1 : dispProj (bA j.body1Index) = bS j.body1Index := hrel _ hv1
  have e2 : dispProj (bA j.body2Index) = bS j.body2Index := hrel _ hv2
  have hl1 : (bS j.body1Index).lastIteration = (bA j.body1Index).lastDisplacementIteration := by
    rw [← e1]; rfl
  have hl2 : (bS j.body2Index).lastIteration = (bA j.body2Index).lastDisplacementIteration := by
    rw [← e2]; rfl
  by_cases hsk : (bA j.body1Index).lastDisplacementIteration < i - 1 ∧
      (bA j.body2Index).lastDisplacementIteration < i - 1
  · have hskS : batchSkipDisplacementSoA i bS [j] = true := by
      rw [batchSkipDisp1, hl1, hl2]
      exact decide_eq_true hsk
    have hA : solveJointDisplacementAoS i bA j = (bA, j, false) := by
      rw [solveJointDisplacementAoS, if_pos hsk]
    have hS : solveBatchDisplacementSoA i bS [j] = (bS, [j], false) := by
      rw [solveBatchDisplacementSoA, hskS]
      simp
    rw [hA, hS]
    exact ⟨fun n hn => hrel n hn, rfl, rfl, fun n => rfl, fun o ho => ho⟩
  · have hskS : batchSkipDisplacementSoA i bS [j] = false := by
      rw [batchSkipDisp1, hl1, hl2]
      exact decide_eq_false hsk
    have hA : solveJointDisplacementAoS i bA j =
        (updBody (updBody bA j.body1Index
            (mergeDisp (bA j.body1Index)
              (laneDisplacementSoA i (dispProj (bA j.body1Index))
                (dispProj (bA j.body2Index)) j).1))
          j.body2Index
            (mergeDisp (bA j.body2Index)
              (laneDisplacementSoA i (dispProj (bA j.body1Index))
                (dispProj (bA j.body2Index)) j).2.1),
         (laneDisplacementSoA i (dispProj (bA j.body1Index))
           (dispProj (bA j.body2Index)) j).2.2.1,
         (laneDisplacementSoA i (dispProj (bA j.body1Index))
           (dispProj (bA j.body2Index)) j).2.2.2) := by
      rw [solveJointDisplacementAoS, if_neg hsk, displacementAoS_bridge i bA j hne]
    have hS : solveBatchDisplacementSoA i bS [j] =
        (updSolveBody (updSolveBody bS j.body1Index
            (laneDisplacementSoA i (dispProj (bA j.body1Index))
              (dispProj (bA j.body2Index)) j).1)
          j.body2Index
            (laneDisplacementSoA i (dispProj (bA j.body1Index))
              (dispProj (bA j.body2Index)) j).2.1,
         [(laneDisplacementSoA i (dispProj (bA j.body1Index))
            (dispProj (bA j.body2Index)) j).2.2.1],
         (laneDisplacementSoA i (dispProj (bA j.body1Index))
           (dispProj (bA j.body2Index)) j).2.2.2) := by
      rw [solveBatchDisplacementSoA, hskS]
      simp only [Bool.false_eq_true, if_false]
      rw [batchDisp1, ← e1, ← e2]
    rw [hA, hS]
    dsimp only
    refine ⟨?_, rfl, rfl, ?_, ?_⟩
    · intro n hn
      by_cases hx2 : n = j.body2Index
      · subst hx2
        rw [updBody_same, updSolveBody_same, dispProj_mergeDisp]
      · by_cases hx1 : n = j.body1Index
        · subst hx1
          rw [updBody_other _ _ _ _ hne, updSolveBody_other _ _ _ _ hne,
            updBody_same, updSolveBody_same, dispProj_mergeDisp]
        · rw [updBody_other _ _ _ _ hx2, updSolveBody_other _ _ _ _ hx2,
            updBody_other _ _ _ _ hx1, updSolveBody_other _ _ _ _ hx1]
          exact hrel n hn
    · intro n
      by_cases hx2 : n = j.body2Index
      · subst hx2
        rw [updBody_same, impProj_mergeDisp]
      · by_cases hx1 : n = j.body1Index
        · subst hx1
          rw [updBody_other _ _ _ _ hne, updBody_same, impProj_mergeDisp]
        · rw [updBody_other _ _ _ _ hx2, updBody_other _ _ _ _ hx1]
    · intro o ho
      obtain ⟨z, hz⟩ := laneDisplacementSoA_joint_shape i
        (dispProj (bA j.body1Index)) (dispProj (bA j.body2Index)) j
      rw [hz]
      exact writeBack_kernel_disp o j z ho

theorem AoSImp_nil (i : ℤ) (bA : ℕ → RigidBody) :
    SolveJointsImpulsesAoS i bA [] = (bA, [], false) := rfl

theorem AoSImp_cons (i : ℤ) (bA : ℕ → RigidBody) (c : ContactJoint)
    (cs : List ContactJoint) :
    SolveJointsImpulsesAoS i bA (c :: cs) =
      ((SolveJointsImpulsesAoS i (solveJointImpulseAoS i bA c).1 cs).1,
       (solveJointImpulseAoS i bA c).2.1 ::
         (SolveJointsImpulsesAoS i (solveJointImpulseAoS i bA c).1 cs).2.1,
       (solveJointImpulseAoS i bA c).2.2 ||
         (SolveJointsImpulsesAoS i (solveJointImpulseAoS i bA c).1 cs).2.2) := rfl

theorem AoSDisp_nil (i : ℤ) (bA : ℕ → RigidBody) :
    SolveJointsDisplacementAoS i bA [] = (bA, [], false) := rfl

theorem AoSDisp_cons (i : ℤ) (bA : ℕ → RigidBody) (c : ContactJoint)
    (cs : List ContactJoint) :
    SolveJointsDisplacementAoS i bA (c :: cs) =
      ((SolveJointsDisplacementAoS i (solveJointDisplacementAoS i bA c).1 cs).1,
       (solveJointDisplacementAoS i bA c).2.1 ::
         (SolveJointsDisplacementAoS i (solveJointDisplacementAoS i bA c).1 cs).2.1,
       (solveJointDisplacementAoS i bA c).2.2 ||
         (SolveJointsDisplacementAoS i (solveJointDisplacementAoS i bA c).1 cs).2.2) := rfl

theorem passImpulses_bridge (bc : ℕ) (i : ℤ) (origs js : List ContactJoint)
    (hfa : List.Forall₂ (fun o c => writeBackJoint c o = c) origs js) :
    ∀ (bA : ℕ → RigidBody) (bS : ℕ → SolveBody),
    (∀ j ∈ js, j.body1Index ≠ j.body2Index ∧ j.body1Index < bc ∧ j.body2Index < bc) →
    (∀ n, n < bc → impProj (bA n) = bS n) →
    (∀ n, n < bc → impProj ((SolveJointsImpulsesAoS i bA js).1 n) =
       (SolveJointsImpulsesSoA 1 i bS js).1 n) ∧
    (SolveJointsImpulsesSoA 1 i bS js).2.1 = (SolveJointsImpulsesAoS i bA js).2.1 ∧
    (SolveJointsImpulsesSoA 1 i bS js).2.2 = (SolveJointsImpulsesAoS i bA js).2.2 ∧
    (∀ n, dispProj ((SolveJointsImpulsesAoS i bA js).1 n) = dispProj (bA n)) ∧
    List.Forall₂ (fun o c => writeBackJoint c o = c) origs
      (SolveJointsImpulsesAoS i bA js).2.1 := by
  induction hfa with
  | nil =>
    intro bA bS _hval hrel
    rw [SoAImp1_nil]
    exact ⟨fun n hn => hrel n hn, rfl, rfl, fun n => rfl, List.Forall₂.nil⟩
  | @cons o c os cs h1 _h2 ih =>
    intro bA bS hval hrel
    have hc := hval c (List.mem_cons_self c cs)
    have hstep := stepImpulse_bridge bc i bA bS c hc.1 hc.2.1 hc.2.2 hrel
    have hrest := ih (solveJointImpulseAoS i bA c).1 (solveBatchImpulsesSoA i bS [c]).1
      (fun j hj => hval j (List.mem_cons_of_mem _ hj)) hstep.1
    rw [SoAImp1_cons, AoSImp_cons]
    dsimp only
    refine ⟨fun n hn => hrest.1 n hn, ?_, ?_, ?_, ?_⟩
    · rw [hstep.2.1, hrest.2.1]
      rfl
    · rw [hstep.2.2.1, hrest.2.2.1]
    · exact fun n => (hrest.2.2.2.1 n).trans (hstep.2.2.2.1 n)
    · exact List.Forall₂.cons (hstep.2.2.2.2 o h1) hrest.2.2.2.2

theorem passDisplacement_bridge (bc : ℕ) (i : ℤ) (origs js : List ContactJoint)
    (hfa : List.Forall₂ (fun o c => writeBackJoint c o = c) origs js) :
    ∀ (bA : ℕ → RigidBody) (bS : ℕ → SolveBody),
    (∀ j ∈ js, j.body1Index ≠ j.body2Index ∧ j.body1Index < bc ∧ j.body2Index < bc) →
    (∀ n, n < bc → dispProj (bA n) = bS n) →
    (∀ n, n < bc → dispProj ((SolveJointsDisplacementAoS i bA js).1 n) =
       (SolveJointsDisplacementSoA 1 i bS js).1 n) ∧
    (SolveJointsDisplacementSoA 1 i bS js).2.1 = (SolveJointsDisplacementAoS i bA js).2.1 ∧
    (SolveJointsDisplacementSoA 1 i bS js).2.2 = (SolveJointsDisplacementAoS i bA js).2.2 ∧
    (∀ n, impProj ((SolveJointsDisplacementAoS i bA js).1 n) = impProj (bA n)) ∧
    List.Forall₂ (fun o c => writeBackJoint c o = c) origs
      (SolveJointsDisplacementAoS i bA js).2.1 := by
  induction hfa with
  | nil =>
    intro bA bS _hval hrel
    rw [SoADisp1_nil]
    exact ⟨fun n hn => hrel n hn, rfl, rfl, fun n => rfl, List.Forall₂.nil⟩
  | @cons o c os cs h1 _h2 ih =>
    intro bA bS hval hrel
    have hc := hval c (List.mem_cons_self c cs)
    have hstep := stepDisplacement_bridge bc i bA bS c hc.1 hc.2.1 hc.2.2 hrel
    have hrest := ih (solveJointDisplacementAoS i bA c).1
      (solveBatchDisplacementSoA i bS [c]).1
      (fun j hj => hval j (List.mem_cons_of_mem _ hj)) hstep.1
    rw [SoADisp1_cons, AoSDisp_cons]
    dsimp only
    refine ⟨fun n hn => hrest.1 n hn, ?_, ?_, ?_, ?_⟩
    · rw [hstep.2.1, hrest.2.1]
      rfl
    · rw [hstep.2.2.1, hrest.2.2.1]
    · exact fun n => (hrest.2.2.2.1 n).trans (hstep.2.2.2.1 n)
    · exact List.Forall₂.cons (hstep.2.2.2.2 o h1) hrest.2.2.2.2

theorem runPasses_rel {σA σS : Type} (pA : ℤ → σA → σA × Bool) (pS : ℤ → σS → σS × Bool)
    (R : σA → σS → Prop)
    (hstep : ∀ i sA sS, R sA sS →
      R (pA i sA).1 (pS i sS).1 ∧ (pS i sS).2 = (pA i sA).2) :
    ∀ (n : ℕ) (i : ℤ) (sA : σA) (sS : σS), R sA sS →
      R (runPasses pA n i sA) (runPasses pS n i sS) := by
  intro n
  induction n with
  | zero => intro i sA sS h; exact h
  | succ m ih =>
    intro i sA sS h
    have hs := hstep i sA sS h
    simp only [runPasses]
    rw [hs.2]
    cases hb : (pA i sA).2
    · simp only [hb, Bool.false_eq_true, if_false]
      exact hs.1
    · simp only [hb, if_true]
      exact ih (i + 1) _ _ hs.1

/-- The simulation relation between the AoS solver state and the SoA scalar
solver state during the impulse phase: equal joint lists, joints differing
from the originals only in accumulators, body stores equal on the impulse
channel, and the displacement channel untouched since the prepare step. -/
def impulseRel (bodies : ℕ → RigidBody) (bodiesCount : ℕ) (js : List ContactJoint)
    (sA : (ℕ → RigidBody) × List ContactJoint)
    (sS : (ℕ → SolveBody) × List ContactJoint) : Prop :=
  sA.2 = sS.2 ∧
  List.Forall₂ (fun o c => writeBackJoint c o = c) js sA.2 ∧
  (∀ n, n < bodiesCount → impProj (sA.1 n) = sS.1 n) ∧
  (∀ n, dispProj (sA.1 n) = dispProj (SolvePrepareAoS bodies bodiesCount n))

/-- The simulation relation during the displacement phase: equal joint
lists, accumulator-only joint drift, body stores equal on the displacement
channel, and the impulse channel frozen at its end-of-phase-1 state. -/
def displacementRel (base : ℕ → RigidBody) (bodiesCount : ℕ) (js : List ContactJoint)
    (sA : (ℕ → RigidBody) × List ContactJoint)
    (sS : (ℕ → SolveBody) × List ContactJoint) : Prop :=
  sA.2 = sS.2 ∧
  List.Forall₂ (fun o c => writeBackJoint c o = c) js sA.2 ∧
  (∀ n, n < bodiesCount → dispProj (sA.1 n) = sS.1 n) ∧
  (∀ n, impProj (sA.1 n) = impProj (base n))

theorem impulseRel_step (bodies : ℕ → RigidBody) (bodiesCount : ℕ)
    (js : List ContactJoint)
    (hval : ∀ j ∈ js, j.body1Index ≠ j.body2Index ∧
      j.body1Index < bodiesCount ∧ j.body2Index < bodiesCount) :
    ∀ (i : ℤ) (sA : (ℕ → RigidBody) × List ContactJoint)
      (sS : (ℕ → SolveBody) × List ContactJoint),
      impulseRel bodies bodiesCount js sA sS →
      impulseRel bodies bodiesCount js (impulsePassAoS i sA).1 (impulsePassSoA1 i sS).1 ∧
      (impulsePassSoA1 i sS).2 = (impulsePassAoS i sA).2 := by
  intro i sA sS hR
  obtain ⟨bA, jsA⟩ := sA
  obtain ⟨bS, jsS⟩ := sS
  obtain ⟨hjs, hfa, himp, hdisp⟩ := hR
  dsimp only at hjs hfa himp hdisp
  subst hjs
  have hvalcur : ∀ j ∈ jsA, j.body1Index ≠ j.body2Index ∧
      j.body1Index < bodiesCount ∧ j.body2Index < bodiesCount := by
    intro j hj
    obtain ⟨o, ho, hwb⟩ := forall₂_mem_right hfa j hj
    obtain ⟨hb1, hb2⟩ := wbj_indices o j hwb
    rw [hb1, hb2]
    exact hval o ho
  have hp := passImpulses_bridge bodiesCount i js jsA hfa bA bS hvalcur himp
  constructor
  · dsimp only [impulsePassAoS, impulsePassSoA1, impulseRel]
    exact ⟨hp.2.1.symm, hp.2.2.2.2, hp.1, fun n => (hp.2.2.2.1 n).trans (hdisp n)⟩
  · dsimp only [impulsePassAoS, impulsePassSoA1]
    exact hp.2.2.1

theorem displacementRel_step (base : ℕ → RigidBody) (bodiesCount : ℕ)
    (js : List ContactJoint)
    (hval : ∀ j ∈ js, j.body1Index ≠ j.body2Index ∧
      j.body1Index < bodiesCount ∧ j.body2Index < bodiesCount) :
    ∀ (i : ℤ) (sA : (ℕ → RigidBody) × List ContactJoint)
      (sS : (ℕ → SolveBody) × List ContactJoint),
      displacementRel base bodiesCount js sA sS →
      displacementRel base bodiesCount js
        (displacementPassAoS i sA).1 (displacementPassSoA1 i sS).1 ∧
      (displacementPassSoA1 i sS).2 = (displacementPassAoS i sA).2 := by
  intro i sA sS hR
  obtain ⟨bA, jsA⟩ := sA
  obtain ⟨bS, jsS⟩ := sS
  obtain ⟨hjs, hfa, hdisp, himp⟩ := hR
  dsimp only at hjs hfa hdisp himp
  subst hjs
  have hvalcur : ∀ j ∈ jsA, j.body1Index ≠ j.body2Index ∧
      j.body1Index < bodiesCount ∧ j.body2Index < bodiesCount := by
    intro j hj
    obtain ⟨o, ho, hwb⟩ := forall₂_mem_right hfa j hj
    obtain ⟨hb1, hb2⟩ := wbj_indices o j hwb
    rw [hb1, hb2]
    exact hval o ho
  have hp := passDisplacement_bridge bodiesCount i js jsA hfa bA bS hvalcur hdisp
  constructor
  · dsimp only [displacementPassAoS, displacementPassSoA1, displacementRel]
    exact ⟨hp.2.1.symm, hp.2.2.2.2, hp.1, fun n => (hp.2.2.2.1 n).trans (himp n)⟩
  · dsimp only [displacementPassAoS, displacementPassSoA1]
    exact hp.2.2.1

/-- C1 (amended): for a scene in which every joint connects two distinct
bodies with indices inside the body array, `SolveJointsAoS` and
`SolveJointsSoA_Scalar` produce, in exact arithmetic, the same final body
velocities (both channels), the same joint accumulators, and the same
returned average for the same iteration budgets `(C, P)`.  The amendment
over the spec's claim is the distinct-bodies hypothesis: on a joint with
`body1Index = body2Index` the two backends genuinely diverge (see the
counterexample), because the AoS kernel reads back its own first-body write
while the SoA kernel computes both halves in registers and lets the second
scatter overwrite the first. -/
theorem cross_backend_equivalence (bodies : ℕ → RigidBody) (bodiesCount : ℕ)
    (js : List ContactJoint) (C P : ℕ)
    (hval : ∀ j ∈ js, j.body1Index ≠ j.body2Index ∧
      j.body1Index < bodiesCount ∧ j.body2Index < bodiesCount) :
    bodyVelocities (SolveJointsAoS bodies bodiesCount js C P).1 bodiesCount =
      bodyVelocities (SolveJointsSoA_Scalar bodies bodiesCount js C P).1 bodiesCount ∧
    jointAccumulators (SolveJointsAoS bodies bodiesCount js C P).2.1 =
      jointAccumulators (SolveJointsSoA_Scalar bodies bodiesCount js C P).2.1 ∧
    (SolveJointsAoS bodies bodiesCount js C P).2.2 =
      (SolveJointsSoA_Scalar bodies bodiesCount js C P).2.2 := by
  have hidx := prepareIndices_one js bodiesCount
  simp only [SolveJointsAoS, SolveJointsSoA_Scalar, hidx, packJoints_range]
  set s1A := runPasses impulsePassAoS C 0 (SolvePrepareAoS bodies bodiesCount, js) with hs1A
  set s1S := runPasses impulsePassSoA1 C 0
    ((SolvePrepareBodiesSoA bodies bodiesCount).1, js) with hs1S
  set s2A := runPasses displacementPassAoS P 0 s1A with hs2A
  set s2S := runPasses displacementPassSoA1 P 0
    ((SolvePrepareBodiesSoA bodies bodiesCount).2, s1S.2) with hs2S
  have hinit1 : impulseRel bodies bodiesCount js
      (SolvePrepareAoS bodies bodiesCount, js)
      ((SolvePrepareBodiesSoA bodies bodiesCount).1, js) := by
    refine ⟨rfl, List.forall₂_same.mpr (fun x _ => wbj_self x), ?_, fun n => rfl⟩
    intro n hn
    simp [SolvePrepareAoS, SolvePrepareBodiesSoA, impProj, hn]
  have h1 : impulseRel bodies bodiesCount js s1A s1S :=
    runPasses_rel impulsePassAoS impulsePassSoA1 (impulseRel bodies bodiesCount js)
      (impulseRel_step bodies bodiesCount js hval) C 0 _ _ hinit1
  obtain ⟨hjs1, hfa1, himp1, hdisp1⟩ := h1
  have hinit2 : displacementRel s1A.1 bodiesCount js s1A
      ((SolvePrepareBodiesSoA bodies bodiesCount).2, s1S.2) := by
    refine ⟨hjs1, hfa1, ?_, fun n => rfl⟩
    intro n hn
    dsimp only
    rw [hdisp1 n]
    simp [SolvePrepareAoS, SolvePrepareBodiesSoA, dispProj, hn]
  have h2 : displacementRel s1A.1 bodiesCount js s2A s2S :=
    runPasses_rel displacementPassAoS displacementPassSoA1
      (displacementRel s1A.1 bodiesCount js)
      (displacementRel_step s1A.1 bodiesCount js hval) P 0 _ _ hinit2
  obtain ⟨hjs2, hfa2, hdisp2, himpf⟩ := h2
  have himpfinal : ∀ n, n < bodiesCount → impProj (s2A.1 n) = s1S.1 n :=
    fun n hn => (himpf n).trans (himp1 n hn)
  refine ⟨?_, ?_, ?_⟩
  · simp only [SolveFinishSoA, bodyVelocities]
    refine List.map_congr_left ?_
    intro n hn
    have hn2 : n < bodiesCount := List.mem_range.mp hn
    have hI : impProj (s2A.1 n) = s1S.1 n := himpfinal n hn2
    have hD : dispProj (s2A.1 n) = s2S.1 n := hdisp2 n hn2
    simp only [if_pos hn2]
    rw [← hI, ← hD]
    rfl
  · simp only [SolveFinishSoA]
    rw [← hjs2, writeBackAccumulators_id js s2A.2 hfa2]
  · simp only [SolveFinishSoA, SolveFinishAoS]
    rw [← hjs2]
    have hlen : s2A.2.length = js.length := hfa2.length_eq.symm
    rw [foldl_add_shift, foldl_add_shift, hlen]
    have hmap : (s2A.2.map fun j =>
        (max (s2A.1 j.body1Index).lastIteration (s2A.1 j.body2Index).lastIteration + 2) +
        (max (s2A.1 j.body1Index).lastDisplacementIteration
             (s2A.1 j.body2Index).lastDisplacementIteration + 2)) =
        (s2A.2.map fun j =>
        (max (s1S.1 j.body1Index).lastIteration (s1S.1 j.body2Index).lastIteration + 2) +
        (max (s2S.1 j.body1Index).lastIteration (s2S.1 j.body2Index).lastIteration + 2)) := by
      refine List.map_congr_left ?_
      intro j hj
      obtain ⟨o, ho, hwb⟩ := forall₂_mem_right hfa2 j hj
      obtain ⟨hb1, hb2⟩ := wbj_indices o j hwb
      have hv := hval o ho
      have hv1 : j.body1Index < bodiesCount := by rw [hb1]; exact hv.2.1
      have hv2 : j.body2Index < bodiesCount := by rw [hb2]; exact hv.2.2
      have e1 : (s2A.1 j.body1Index).lastIteration = (s1S.1 j.body1Index).lastIteration :=
        congrArg SolveBody.lastIteration (himpfinal _ hv1)
      have e2 : (s2A.1 j.body2Index).lastIteration = (s1S.1 j.body2Index).lastIteration :=
        congrArg SolveBody.lastIteration (himpfinal _ hv2)
      have d1 : (s2A.1 j.body1Index).lastDisplacementIteration =
          (s2S.1 j.body1Index).lastIteration :=
        congrArg SolveBody.lastIteration (hdisp2 _ hv1)
      have d2 : (s2A.1 j.body2Index).lastDisplacementIteration =
          (s2S.1 j.body2Index).lastIteration :=
        congrArg SolveBody.lastIteration (hdisp2 _ hv2)
      rw [e1, e2, d1, d2]
    rw [hmap]

/-- A degenerate self-joint (`body1Index = body2Index = 0`) with unit
destination velocity, unit effective inverse mass, and a unit linear mass
component on the first body: a minimal aliased scene. -/
def cxJoint : ContactJoint :=
  { body1Index := 0
    body2Index := 0
    normalLimiter := { (default : NormalLimiter) with
      dstVelocity := 1
      compInvMass := 1
      compMass1_linearX := 1 }
    frictionLimiter := default }

/-- A single body at rest. -/
def cxBodies : ℕ → RigidBody := fun _ => default

/-- C1 counterexample: on the aliased one-joint scene `cxJoint` the two
backends return different final body velocities with the same budgets
`(C, P) = (1, 0)`: the AoS kernel reads back its own first write (final
`velocityX = 1`), while the SoA kernel computes both scatter values from
register copies and the second `storeindexed4` overwrites the first (final
`velocityX = 0`).  The spec's unqualified claim that the two backends agree
in exact arithmetic is therefore false without a distinct-bodies
hypothesis. -/
theorem cross_backend_counterexample :
    bodyVelocities (SolveJointsAoS cxBodies 1 [cxJoint] 1 0).1 1 ≠
      bodyVelocities (SolveJointsSoA_Scalar cxBodies 1 [cxJoint] 1 0).1 1 := by
  have hA : bodyVelocities (SolveJointsAoS cxBodies 1 [cxJoint] 1 0).1 1 =
      [(1, 0, 0, 0, 0, 0)] := by
    with_unfolding_all decide
  have hS : bodyVelocities (SolveJointsSoA_Scalar cxBodies 1 [cxJoint] 1 0).1 1 =
      [(0, 0, 0, 0, 0, 0)] := by
    have hd : (default : RigidBody) = ⟨0, 0, 0, 0, 0, 0, 0, 0⟩ := rfl
    have hsb : (default : SolveBody) = ⟨0, 0, 0, 0⟩ := rfl
    have hnl : (default : NormalLimiter) =
      ⟨0, 0, 0, 0, 0, 0, 0, 0, 0, 0, 0, 0, 0, 0, 0, 0, 0⟩ := rfl
    have hfl : (default : FrictionLimiter) =
      ⟨0, 0, 0, 0, 0, 0, 0, 0, 0, 0, 0, 0, 0, 0⟩ := rfl
    norm_num [hd, hsb, hnl, hfl, SolveJointsSoA_Scalar, SolvePrepareBodiesSoA, SolvePrepareIndicesSoA,
      packJoints, List.range_succ, List.range_zero, List.getD_cons_zero,
      runPasses, impulsePassSoA1, SoAImp1_cons, SoAImp1_nil,
      solveBatchImpulsesSoA, batchSkipImpulsesSoA, solveBatchImpulsesSoACompute,
      laneImpulseSoA, updSolveBody, cxJoint, cxBodies, SolveFinishSoA,
      bodyVelocities, kProductiveImpulse, kFrictionCoefficient, flipsign]
  rw [hA, hS]
  with_unfolding_all decide

/-- Witness for `cross_backend_equivalence`: a two-body scene with one
well-formed joint, budgets `(1, 1)`. -/
theorem cross_backend_equivalence_witness :
    (∀ j ∈ ([⟨0, 1, default, default⟩] : List ContactJoint),
      j.body1Index ≠ j.body2Index ∧ j.body1Index < 2 ∧ j.body2Index < 2) ∧
    bodyVelocities
        (SolveJointsAoS (fun _ => default) 2 [⟨0, 1, default, default⟩] 1 1).1 2 =
      bodyVelocities
        (SolveJointsSoA_Scalar (fun _ => default) 2 [⟨0, 1, default, default⟩] 1 1).1 2 :=
  ⟨by decide,
   (cross_backend_equivalence (fun _ => default) 2 [⟨0, 1, default, default⟩] 1 1
     (by decide)).1⟩

end Phyx
